import Mathlib

/-!
# Observational-memory engine: shallow embedding and verification

This file embeds the memory lifecycle engine of the `pi-observational-memory`
extension (`src/index.ts`, main variant, lines 1-1741) in Lean 4 and proves the
frozen specification claims about it.

Modelling conventions:
* JavaScript strings are modelled as Lean `String` and processed through their
  character lists (`String.toList` / `String.mk`), so that every definition is
  executable in the kernel.  JS `\s` / `trim()` whitespace is modelled by
  `Char.isWhitespace` (space, tab, CR, LF); the exotic Unicode space separators
  accepted by JS never occur in the inputs the claims are about.
* JS numbers holding token counts are modelled as `Nat` (the source only ever
  stores non-negative integer estimates in them); the float intermediate steps
  of the token estimator are computed exactly with `Nat` ceiling divisions.
* External, effectful collaborators (the Gemini CLI channel, the hosted-model
  API, the host UI, persistence) are modelled at their interface boundary: an
  external summarization call is an explicit input describing whether it threw,
  was unavailable, or returned parsed sections.
* Timestamps written into the state (`createdAt`, `lastObservedAt`, ...) are
  opaque strings supplied as parameters.
-/

namespace OM

/-! ## Character-level string utilities (JS `split` / `trim` / `includes`) -/

/-- JS whitespace test used by `trim()` and `\s` (modelled on the ASCII range). -/
def isJsWs (c : Char) : Bool := c.isWhitespace

/-- JS `String.prototype.trim`: drop whitespace from both ends. -/
def jsTrim (s : String) : String :=
  String.mk (((s.toList.dropWhile isJsWs).reverse.dropWhile isJsWs).reverse)

/-- JS `text.split("\n")`. -/
def splitNl (s : String) : List String := (s.toList.splitOn '\n').map String.mk

/-- JS `lines.join("\n")`. -/
def joinNl (ls : List String) : String :=
  String.mk (List.intercalate ['\n'] (ls.map String.toList))

/-- The last `n` elements of a list (for `n ≠ 0` this is JS `arr.slice(-n)`). -/
def takeLastN (n : Nat) (l : List α) : List α := l.drop (l.length - n)

/-- JS `arr.slice(-n)`: for `n = 0` this is `slice(0)`, i.e. the whole array. -/
def jsSliceLast (n : Nat) (l : List α) : List α :=
  if n = 0 then l else takeLastN n l

/-- ASCII lower-casing, modelling JS `toLowerCase` on the inputs in scope. -/
def strLower (s : String) : String := String.mk (s.toList.map Char.toLower)

/-- Does `needle` occur at the head of `hay`? -/
def headMatches : List Char → List Char → Bool
  | [], _ => true
  | _ :: _, [] => false
  | n :: ns, h :: hs => n = h && headMatches ns hs

/-- JS `hay.includes(needle)` on character lists. -/
def containsSeq (hay needle : List Char) : Bool :=
  match hay with
  | [] => needle.isEmpty
  | _ :: t => headMatches needle hay || containsSeq t needle

/-- JS `hay.includes(needle)` on strings. -/
def containsSubstr (hay needle : String) : Bool := containsSeq hay.toList needle.toList

/-- First index at which `needle` occurs in `hay` (JS `String.prototype.indexOf`). -/
def indexOfSeq (hay needle : List Char) : Option Nat :=
  match hay with
  | [] => if needle.isEmpty then some 0 else none
  | _ :: t =>
    if headMatches needle hay then some 0
    else (indexOfSeq t needle).map (· + 1)

/-- Deduplication keeping the first occurrence, modelling JS `Set` insertion. -/
def dedupKeepFirst : List String → List String → List String
  | [], _ => []
  | x :: xs, seen =>
    if seen.contains x then dedupKeepFirst xs seen
    else x :: dedupKeepFirst xs (x :: seen)

/-! ## Token estimator (`roughTextTokenizer`, src/index.ts:587-601) -/

/-- Word characters of the `[\p{L}\p{N}_]` class (modelled on the ASCII range). -/
def isWordChar (c : Char) : Bool := c.isAlphanum || c = '_'

theorem length_dropWhile_le (p : α → Bool) (l : List α) :
    (l.dropWhile p).length ≤ l.length := by
  induction l with
  | nil => simp
  | cons c cs ih =>
    rw [List.dropWhile_cons]
    split
    · exact Nat.le_succ_of_le ih
    · simp

/-- Character scan counting the matches of
`/[\p{L}\p{N}_]+|[^\s\p{L}\p{N}_]/gu`; `inWord` records whether the previous
character extended a word run. -/
def lexicalCountAux (inWord : Bool) : List Char → Nat
  | [] => 0
  | c :: cs =>
    if isWordChar c then (if inWord then 0 else 1) + lexicalCountAux true cs
    else if isJsWs c then lexicalCountAux false cs
    else 1 + lexicalCountAux false cs

/-- Number of matches of `/[\p{L}\p{N}_]+|[^\s\p{L}\p{N}_]/gu`: maximal word
runs count once, every other non-space character counts once. -/
def lexicalCount (l : List Char) : Nat := lexicalCountAux false l

/-- Ceiling division, the exact value of `Math.ceil (a / b)` for naturals. -/
def ceilDiv (a b : Nat) : Nat := (a + b - 1) / b

/-- `roughTextTokenizer(text, modelHint)` (src/index.ts:587-601).  The float
arithmetic `max 1 (ceil (max (len / cpt) (lexical * 0.72)))` is computed
exactly: `charsPerToken` is scaled by 10 and `0.72` by 100, and
`ceil (max a b) = max (ceil a) (ceil b)`. -/
def roughTextTokenizer (text : String) (modelHint : Option String) : Nat :=
  if text = "" then 0
  else
    let lexical := lexicalCount text.toList
    let hint := strLower (match modelHint with | some h => h | none => "")
    let cpt10 : Nat :=
      let base := 40
      let base := if containsSubstr hint "claude" || containsSubstr hint "anthropic" then 36 else base
      let base := if containsSubstr hint "gemini" || containsSubstr hint "google" then 38 else base
      if containsSubstr hint "qwen" || containsSubstr hint "deepseek" then 37 else base
    let charEstimate := ceilDiv (text.toList.length * 10) cpt10
    let lexicalEstimate := ceilDiv (lexical * 72) 100
    Nat.max 1 (Nat.max charEstimate lexicalEstimate)

/-! ## Observation line merge (`mergeObservationItems`, src/index.ts:641-646) -/

/-- The `text.split("\n").map(l => l.trim()).filter(Boolean)` idiom used by
`mergeObservationItems` and `buildCoreAndRelevantObservations`. -/
def trimmedNonEmptyLines (text : String) : List String :=
  ((splitNl text).map jsTrim).filter (fun l => l != "")

/-- `mergeObservationItems(existingText, incomingText)` (src/index.ts:641-646);
`maxObservationItems` is the module-level `omConfig.maxObservationItems`. -/
def mergeObservationItems (maxObservationItems : Nat) (existingText incomingText : String) : String :=
  let existing := trimmedNonEmptyLines existingText
  let incoming := trimmedNonEmptyLines incomingText
  let merged := existing ++ incoming
  joinNl (jsSliceLast maxObservationItems merged)

/-- A document text is normalized for cap `cap` when it is the newline join of
its own trimmed non-empty lines and holds at most `cap` of them.  Every
document produced by `mergeObservationItems` with cap `cap` satisfies this. -/
def IsNormalizedDoc (d : String) (cap : Nat) : Prop :=
  joinNl (trimmedNonEmptyLines d) = d ∧ (trimmedNonEmptyLines d).length ≤ cap

instance (d : String) (cap : Nat) : Decidable (IsNormalizedDoc d cap) := by
  unfold IsNormalizedDoc; infer_instance

/-! ## Data model (src/index.ts:9-47, 217-256) -/

/-- `StorageScope` (src/index.ts:9). -/
inductive StorageScope where
  | thread
  | resource
deriving DecidableEq, Repr

/-- `OmSections` (src/index.ts:43-47): the parse result of a model output.
`parseOmSections` trims each field and turns an empty optional field into
`undefined`, so the optional fields are `none` or a non-empty string. -/
structure OmSections where
  observations : String
  currentTask : Option String
  suggestedResponse : Option String
deriving DecidableEq, Repr

/-- `ReflectionSnapshot` (src/index.ts:11-16). -/
structure ReflectionSnapshot where
  /-- The `at` timestamp field (`at` is a Lean keyword). -/
  at_ : String
  beforeTokens : Nat
  afterTokens : Nat
  preview : String
deriving DecidableEq, Repr

/-- `PendingSegment` (src/index.ts:18-23). -/
structure PendingSegment where
  id : String
  createdAt : String
  text : String
  tokens : Nat
deriving DecidableEq, Repr

/-- `OmState` (src/index.ts:25-41).  `lastCompressionRatio` holds the pair
`(inputTokens, max 1 outTokens)`; the source stores the quotient rounded to two
decimals, which no claim depends on, so the exact pair is kept instead. -/
@[ext]
structure OmState where
  version : Nat
  storageScope : StorageScope
  observations : String
  observationTokens : Nat
  currentTask : Option String
  suggestedResponse : Option String
  observationRuns : Nat
  reflectionRuns : Nat
  lastObservedAt : Option String
  lastCompressionRatio : Option (Nat × Nat)
  reflections : List ReflectionSnapshot
  pendingSegments : List PendingSegment
  pendingTokens : Nat
  isBufferingObservation : Bool
  isBufferingReflection : Bool
deriving DecidableEq, Repr

/-- `OmMemoryInjectionMode` (src/index.ts:217). -/
inductive OmMemoryInjectionMode where
  | all
  | coreRelevant
deriving DecidableEq, Repr

/-- `OmConfig` (src/index.ts:219-236).  `normalizeOmConfig` coerces every
numeric key to an integer `≥ 1` (`≥ 0` for `autoObservePendingTokenThreshold`),
so the numeric fields are modelled as `Nat`. -/
structure OmConfig where
  recentTurnBudgetTokens : Nat
  maxObservationItems : Nat
  maxObserverTranscriptChars : Nat
  maxReflectorObservationsChars : Nat
  geminiCliModel : String
  forceObserveAutoCompact : Bool
  memoryInjectionMode : OmMemoryInjectionMode
  coreMemoryMaxTokens : Nat
  relevantObservationMaxItems : Nat
  relevantObservationMaxTokens : Nat
  enableReflection : Bool
  reflectEveryNObservations : Nat
  reflectWhenObservationTokensOver : Nat
  reflectBeforeCompaction : Bool
  autoObservePendingTokenThreshold : Nat
deriving DecidableEq, Repr

/-- `DEFAULT_OM_CONFIG` (src/index.ts:238-254). -/
def DEFAULT_OM_CONFIG : OmConfig where
  recentTurnBudgetTokens := 12000
  maxObservationItems := 1200
  maxObserverTranscriptChars := 200000
  maxReflectorObservationsChars := 240000
  geminiCliModel := "gemini-2.5-flash"
  forceObserveAutoCompact := true
  memoryInjectionMode := .all
  coreMemoryMaxTokens := 500
  relevantObservationMaxItems := 20
  relevantObservationMaxTokens := 1400
  enableReflection := true
  reflectEveryNObservations := 3
  reflectWhenObservationTokensOver := 3000
  reflectBeforeCompaction := true
  autoObservePendingTokenThreshold := 8000

/-- `createInitialState(scope)` (src/index.ts:403-417). -/
def createInitialState (scope : StorageScope) : OmState where
  version := 2
  storageScope := scope
  observations := ""
  observationTokens := 0
  currentTask := none
  suggestedResponse := none
  observationRuns := 0
  reflectionRuns := 0
  lastObservedAt := none
  lastCompressionRatio := none
  reflections := []
  pendingSegments := []
  pendingTokens := 0
  isBufferingObservation := false
  isBufferingReflection := false

/-! ## Pending buffer and shared state helpers
(src/index.ts:648-654, 1133-1141, 1162-1170) -/

/-- Sum of the `tokens` fields of a segment list. -/
def sumSegmentTokens (segs : List PendingSegment) : Nat :=
  (segs.map (fun s => s.tokens)).sum

/-- `recomputePendingCounters(state)` (src/index.ts:648-650), as a function on
the state it mutates. -/
def recomputePendingCounters (s : OmState) : OmState :=
  { s with pendingTokens := sumSegmentTokens s.pendingSegments }

/-- `buildTranscriptFromSegments(segments)` (src/index.ts:652-654). -/
def buildTranscriptFromSegments (segments : List PendingSegment) : String :=
  String.intercalate "\n\n---\n\n" (segments.map (fun s => s.text))

/-- `pushPendingSegment(segment)` (src/index.ts:1162-1170): append a segment
whose token count is clamped to at least 1 (`Math.max(1, segment.tokens)`),
then recompute the pending counters.  The generated `randomId` and the
`new Date().toISOString()` timestamp are supplied as parameters. -/
def pushPendingSegment (id createdAt text : String) (tokens : Nat) (s : OmState) : OmState :=
  recomputePendingCounters
    { s with pendingSegments :=
        s.pendingSegments ++ [{ id := id, createdAt := createdAt, text := text,
                                tokens := Nat.max 1 tokens }] }

/-- The in-memory effects of `persistState(ctx)` (src/index.ts:1133-1141):
recompute the pending counters and the cached observation-token estimate.
(`state.storageScope` is also reassigned the module constant, which never
differs from the stored value; the appended session entry and the optional
SQLite write are external.) -/
def persistEffects (s : OmState) : OmState :=
  let s1 := recomputePendingCounters s
  { s1 with observationTokens := roughTextTokenizer s1.observations none }

/-- `trimPreview(text, maxChars = 320)` (src/index.ts:423-427): collapse
whitespace runs to single spaces, trim, and truncate to 320 characters with an
ellipsis. -/
def collapseWsAux (inWs : Bool) : List Char → List Char
  | [] => []
  | c :: cs =>
    if isJsWs c then (if inWs then [] else [' ']) ++ collapseWsAux true cs
    else c :: collapseWsAux false cs

def collapseWsRuns (l : List Char) : List Char := collapseWsAux false l

def trimPreview (text : String) (maxChars : Nat := 320) : String :=
  let normalized := jsTrim (String.mk (collapseWsRuns text.toList))
  if normalized.toList.length ≤ maxChars then normalized
  else String.mk (normalized.toList.take maxChars) ++ "…"

/-! ## External summarization boundary

An external call (Gemini CLI first, hosted API as fallback, then
`parseOmSections` on the returned text) is modelled by what it delivers to the
engine: it can throw (an uncaught exception from the fallback channel), find no
usable channel, or return the parsed sections of the produced text. -/

/-- Outcome of `runReflectorCall` seen from the outside: `throws` models an
uncaught exception; `returns none` models "no channel produced text or the text
had no recognizable observations section"; `returns (some p)` models a parse
with sections `p`. -/
inductive ExtCallResult where
  | throws
  | returns (parsed : Option OmSections)
deriving DecidableEq, Repr

/-- Input to `runObserverCall` (src/index.ts:1194-1248): `throws` models the
fallback channel raising; `unavailable` models "no model/API key and no Gemini
CLI" (the early `return undefined`); `output p` models a produced text whose
`parseOmSections` result is `p`. -/
inductive ObserverCall where
  | throws
  | unavailable
  | output (parsed : OmSections)
deriving DecidableEq, Repr

/-- `runReflectorCall` (src/index.ts:1250-1293) viewed at its boundary:
`none` = exception propagates, `some none` = parse failed / no observations,
`some (some p)` = parsed sections with non-empty observations. -/
def runReflectorCall (call : ExtCallResult) : Option (Option OmSections) :=
  match call with
  | .throws => none
  | .returns none => some none
  | .returns (some p) =>
    if jsTrim p.observations = "" then some none else some (some p)

/-- `runObserverCall` (src/index.ts:1194-1248) viewed at its boundary.  On a
successful parse it records `lastCompressionRatio` (kept as the exact pair
`(inputTokens, max 1 outTokens)`) and `lastObservedAt := now` on the state
before returning the sections. -/
def runObserverCall (s : OmState) (inputTokens : Nat) (now : String)
    (call : ObserverCall) : OmState × Option (Option OmSections) :=
  match call with
  | .throws => (s, none)
  | .unavailable => (s, some none)
  | .output p =>
    if jsTrim p.observations = "" then (s, some none)
    else
      ({ s with
          lastCompressionRatio :=
            some (inputTokens, Nat.max 1 (roughTextTokenizer p.observations none)),
          lastObservedAt := some now },
        some (some p))

/-- `shouldRunPeriodicReflection()` (src/index.ts:1295-1304). -/
def shouldRunPeriodicReflection (cfg : OmConfig) (s : OmState) : Bool :=
  if !cfg.enableReflection then false
  else if jsTrim s.observations = "" then false
  else
    let everyN := Nat.max 1 cfg.reflectEveryNObservations
    let tokenThreshold := Nat.max 1 cfg.reflectWhenObservationTokensOver
    let byObservationRuns := s.observationRuns > 0 && s.observationRuns % everyN == 0
    let byTokenThreshold := s.observationTokens ≥ tokenThreshold
    byObservationRuns || byTokenThreshold

/-- `reflectNow(ctx, opts)` (src/index.ts:1306-1362).  Returns the state after
the run and `some ok` when the promise resolves with `ok`, or `none` when the
external call throws and the exception propagates (the `finally` block clears
`isBufferingReflection` in every case).  `now` stands for the
`new Date().toISOString()` timestamps taken during the run, and the successful
branch includes the in-memory effects of its `persistState` call. -/
def reflectNow (cfg : OmConfig) (now : String) (aggressive : Bool) (reason : String)
    (s : OmState) (call : ExtCallResult) : OmState × Option Bool :=
  if !cfg.enableReflection then (s, some false)
  else if jsTrim s.observations = "" then (s, some false)
  else if s.isBufferingReflection then (s, some false)
  else
    let s1 : OmState := { s with isBufferingReflection := true }
    let beforeTokens := s1.observationTokens
    match runReflectorCall call with
    | none => ({ s1 with isBufferingReflection := false }, none)
    | some none => ({ s1 with isBufferingReflection := false }, some false)
    | some (some p) =>
      if jsTrim p.observations = "" then
        ({ s1 with isBufferingReflection := false }, some false)
      else
        let obs2 := mergeObservationItems cfg.maxObservationItems "" p.observations
        let s2 : OmState := { s1 with
          observations := obs2,
          observationTokens := roughTextTokenizer obs2 none,
          currentTask := match p.currentTask with
            | some t => some t
            | none => s1.currentTask,
          suggestedResponse := match p.suggestedResponse with
            | some t => some t
            | none => s1.suggestedResponse,
          reflectionRuns := s1.reflectionRuns + 1 }
        let entry : ReflectionSnapshot := {
          at_ := now,
          beforeTokens := beforeTokens,
          afterTokens := s2.observationTokens,
          preview := trimPreview
            (reason ++ (if aggressive then " (aggressive)" else "") ++ ": " ++ s2.observations)
            320 }
        let s3 : OmState := { s2 with reflections := (entry :: s2.reflections).take 15 }
        ({ persistEffects s3 with isBufferingReflection := false }, some true)

/-- The synchronous head of `observeNow` (src/index.ts:1364-1375), up to the
suspension point of the external call: the guards, setting
`isBufferingObservation`, and the snapshot `(transcript, tokens)` built from
the pending segments present at that moment. -/
def observeStart (s : OmState) : Option (OmState × String × Nat) :=
  if s.pendingSegments.isEmpty then none
  else if s.isBufferingObservation then none
  else some ({ s with isBufferingObservation := true },
             buildTranscriptFromSegments s.pendingSegments,
             s.pendingTokens)

/-- The awaited auto-periodic reflection at the end of a successful Observer
run (src/index.ts:1388-1391), followed by the `finally` clearing of the
observation flag: a reflection failure is reported as `true` anyway (the
observation itself succeeded), while a throwing reflection propagates. -/
def observeAutoReflect (cfg : OmConfig) (now : String) (reflectCall : ExtCallResult)
    (s2 : OmState) : OmState × Option Bool :=
  match reflectNow cfg now false "auto-periodic" s2 reflectCall with
  | (s3, none) => ({ s3 with isBufferingObservation := false }, none)
  | (s3, some _) => ({ s3 with isBufferingObservation := false }, some true)

/-- The tail of `observeNow` (src/index.ts:1376-1397), resumed on the state `s`
current when the external call completes (which may hold segments appended
while the call was in flight).  `snapshotTokens` is the token snapshot taken by
`observeStart`; `reflectCall` feeds the nested auto-periodic `reflectNow`.
Returns `none` when an exception propagates; the `finally` clears
`isBufferingObservation` in every case. -/
def observeFinish (cfg : OmConfig) (now : String) (snapshotTokens : Nat)
    (triggerAutoReflect : Bool) (reflectCall : ExtCallResult)
    (s : OmState) (call : ObserverCall) : OmState × Option Bool :=
  match runObserverCall s snapshotTokens now call with
  | (s1, none) => ({ s1 with isBufferingObservation := false }, none)
  | (s1, some none) => ({ s1 with isBufferingObservation := false }, some false)
  | (s1, some (some p)) =>
    let obs2 := mergeObservationItems cfg.maxObservationItems s1.observations p.observations
    let s2 : OmState := { s1 with
      observations := obs2,
      observationTokens := roughTextTokenizer obs2 none,
      currentTask := match p.currentTask with
        | some t => some t
        | none => s1.currentTask,
      suggestedResponse := match p.suggestedResponse with
        | some t => some t
        | none => s1.suggestedResponse,
      observationRuns := s1.observationRuns + 1,
      pendingSegments := [],
      pendingTokens := 0 }
    if triggerAutoReflect && shouldRunPeriodicReflection cfg s2 then
      observeAutoReflect cfg now reflectCall s2
    else ({ s2 with isBufferingObservation := false }, some true)

/-- `observeNow(ctx, opts)` (src/index.ts:1364-1398) when nothing interleaves
with the external call: start, then finish on the started state. -/
def observeNow (cfg : OmConfig) (now : String) (triggerAutoReflect : Bool)
    (reflectCall : ExtCallResult) (s : OmState) (call : ObserverCall) :
    OmState × Option Bool :=
  match observeStart s with
  | none => (s, some false)
  | some (s1, _, snapshotTokens) =>
    observeFinish cfg now snapshotTokens triggerAutoReflect reflectCall s1 call

/-- How the `turn_end` auto-observe attempt ended. -/
inductive AutoObserveOutcome where
  | notTriggered
  | threw
  | ran (observed : Bool)
deriving DecidableEq, Repr

/-- The `turn_end` handler (src/index.ts:1420-1444): push a pending segment for
the completed turn, auto-observe when `autoObservePendingTokenThreshold` is
positive and the pending tokens reach it, then persist.  The serialized turn
text and its token estimate (computed by host helpers) are parameters; an
exception from `observeNow` propagates and skips the `persistState` call. -/
def turnEnd (cfg : OmConfig) (now : String) (segId segCreatedAt segText : String)
    (segTokens : Nat) (reflectCall : ExtCallResult) (call : ObserverCall)
    (s : OmState) : OmState × AutoObserveOutcome :=
  let s1 := pushPendingSegment segId segCreatedAt segText segTokens s
  let threshold := cfg.autoObservePendingTokenThreshold
  if 0 < threshold ∧ threshold ≤ s1.pendingTokens ∧ 0 < s1.pendingSegments.length then
    match observeNow cfg now true reflectCall s1 call with
    | (s2, none) => (s2, .threw)
    | (s2, some b) => (persistEffects s2, .ran b)
  else (persistEffects s1, .notTriggered)

/-! ## Retrieval engine (src/index.ts:262-266, 705-767) -/

/-- `STOPWORDS` (src/index.ts:262-266). -/
def STOPWORDS : List String :=
  ["the", "a", "an", "to", "for", "of", "and", "or", "in", "on", "with", "by",
   "is", "are", "was", "were", "be", "been", "it", "that", "this", "as", "from", "at",
   "user", "assistant", "agent", "tool", "task"]

/-- Characters kept by the `split(/[^\p{L}\p{N}_-]+/u)` word separator of
`keywordSet` (modelled on the ASCII range). -/
def isKeywordChar (c : Char) : Bool := c.isAlphanum || c = '_' || c = '-'

/-- Character scan collecting maximal keyword-character runs; `acc` holds the
reversed run in progress. -/
def wordRunsAux (acc : Option (List Char)) : List Char → List (List Char)
  | [] =>
    match acc with
    | some r => [r.reverse]
    | none => []
  | c :: cs =>
    if isKeywordChar c then wordRunsAux (some (c :: acc.getD [])) cs
    else
      match acc with
      | some r => r.reverse :: wordRunsAux none cs
      | none => wordRunsAux none cs

/-- The non-empty pieces of splitting on runs of non-keyword characters:
maximal runs of keyword characters.  (JS `split` can also yield empty first or
last pieces; those are removed by the `length ≥ 3` filter downstream either
way.) -/
def wordRuns (l : List Char) : List (List Char) := wordRunsAux none l

/-- `keywordSet(text)` (src/index.ts:705-712), with the JS `Set` modelled as a
first-occurrence-deduplicated list (only membership and cardinality of the set
are ever used). -/
def keywordSet (text : String) : List String :=
  let words := ((wordRuns (strLower text).toList).map String.mk).map jsTrim
  dedupKeepFirst
    (words.filter (fun w => 3 ≤ w.toList.length && !(STOPWORDS.contains w))) []

/-- The inner loop of `trimLinesToTokenBudget` after the first line has been
taken (`out.length > 0`, so the budget check is live). -/
def trimBudgetRest (maxTokens used : Nat) (lines : List String) : List String :=
  match lines with
  | [] => []
  | line :: rest =>
    let t := roughTextTokenizer line none
    if maxTokens < used + t then []
    else line :: trimBudgetRest maxTokens (used + t) rest

/-- `trimLinesToTokenBudget(lines, maxTokens)` (src/index.ts:714-724): take
lines while the cumulative token estimate stays within budget, but always take
the first line (the `out.length > 0 && used + t > maxTokens` break condition is
false on the first iteration). -/
def trimLinesToTokenBudget (lines : List String) (maxTokens : Nat) : List String :=
  match lines with
  | [] => []
  | first :: rest => first :: trimBudgetRest maxTokens (roughTextTokenizer first none) rest

/-- Stable insertion into an already sorted list: the new element goes before
the first element it compares `le` to, so earlier-listed elements win ties. -/
def stableInsert (le : α → α → Bool) (a : α) : List α → List α
  | [] => [a]
  | b :: bs => if le a b then a :: b :: bs else b :: stableInsert le a bs

/-- Stable sort by insertion, modelling JS `Array.prototype.sort`: for the
consistent total comparators used here the stable sorted permutation is unique,
so any stable sorting algorithm produces the same list. -/
def jsSortStable (le : α → α → Bool) (l : List α) : List α :=
  l.foldr (stableInsert le) []

/-- One entry of the `ranked` array of `buildCoreAndRelevantObservations`. -/
structure RankedLine where
  line : String
  index : Nat
  score : Nat
deriving DecidableEq, Repr

/-- Score of a line against the query keywords: number of distinct keywords
occurring as substrings of the lower-cased line. -/
def scoreLine (keys : List String) (line : String) : Nat :=
  (keys.filter (fun k => containsSubstr (strLower line) k)).length

/-- The `ranked` list of `buildCoreAndRelevantObservations`
(src/index.ts:742-755): score each line, and either filter to positive scores
and sort by (score desc, index desc), or — with no keywords — sort by index
descending.  JS `Array.prototype.sort` is stable and the comparator is a
consistent total preorder, so it is modelled by the stable `jsSortStable`. -/
def rankedLinesOf (allLines : List String) (keys : List String) : List RankedLine :=
  let ranked := allLines.enum.map (fun p =>
    { line := p.2, index := p.1,
      score := if 0 < keys.length then scoreLine keys p.2 else 0 : RankedLine })
  if 0 < keys.length then
    jsSortStable
      (fun a b => decide (b.score < a.score ∨ (a.score = b.score ∧ b.index ≤ a.index)))
      (ranked.filter (fun r => 0 < r.score))
  else
    jsSortStable (fun a b => decide (b.index ≤ a.index)) ranked

/-- The relevant-selection loop of `buildCoreAndRelevantObservations`
(src/index.ts:757-764): walk the ranked lines, skip lines already selected
(the `unique` set is seeded with the core lines), and stop once
`relevantObservationMaxItems` lines have been pushed. -/
def pickRelevant (maxItems : Nat) (ranked : List RankedLine) (seen : List String)
    (count : Nat) : List String :=
  match ranked with
  | [] => []
  | r :: rest =>
    if seen.contains r.line then pickRelevant maxItems rest seen count
    else if maxItems ≤ count + 1 then [r.line]
    else r.line :: pickRelevant maxItems rest (r.line :: seen) (count + 1)

/-- The core-memory selection (src/index.ts:730-733): the recent tail of the
observation lines, accumulated from the last line backwards under
`coreMemoryMaxTokens`. -/
def coreLinesOf (cfg : OmConfig) (allLines : List String) : List String :=
  (trimLinesToTokenBudget allLines.reverse cfg.coreMemoryMaxTokens).reverse

/-- The pre-budget relevant candidates (src/index.ts:735-764).  A recent
message is represented by its `messageTextForRelevance` extraction (the text a
host message object contributes to the query). -/
def relevantCandidates (cfg : OmConfig) (allLines coreLines : List String)
    (recentMessages : List String) : List String :=
  let queryText := joinNl ((jsSliceLast 6 recentMessages).filter (fun m => m != ""))
  let keys := keywordSet queryText
  pickRelevant cfg.relevantObservationMaxItems (rankedLinesOf allLines keys) coreLines 0

/-- `buildCoreAndRelevantObservations(state, recentMessages)`
(src/index.ts:726-767). -/
def buildCoreAndRelevantObservations (cfg : OmConfig) (s : OmState)
    (recentMessages : List String) : List String × List String :=
  let allLines := trimmedNonEmptyLines s.observations
  if allLines.isEmpty then ([], [])
  else
    let core := coreLinesOf cfg allLines
    let relevantRaw := relevantCandidates cfg allLines core recentMessages
    (core, trimLinesToTokenBudget relevantRaw cfg.relevantObservationMaxTokens)

/-! ## Temporal annotator (src/index.ts:433-572)

JS `Date` values are milliseconds since the epoch; every date the annotator
builds comes from parsing a calendar date, i.e. a local midnight, so a date is
modelled by its civil day number.  `Math.floor(diffMs / 86400000)` between two
midnights is exactly the difference of their day numbers.  The running clock
`new Date()` is modelled as the current date at midnight. -/

/-- Day number of a civil date (days since 1970-01-01, Howard Hinnant's
`days_from_civil`; linear in the day argument, which reproduces the JS rollover
of out-of-range days). -/
def daysFromCivil (y m d : Int) : Int :=
  let y2 := if m ≤ 2 then y - 1 else y
  let era := Int.fdiv y2 400
  let yoe := y2 - era * 400
  let doy := Int.fdiv (153 * (if 2 < m then m - 3 else m + 9) + 2) 5 + d - 1
  let doe := yoe * 365 + Int.fdiv yoe 4 - Int.fdiv yoe 100 + doy
  era * 146097 + doe - 719468

/-- The month names the JS date parser accepts in the `Month D, YYYY` strings
in scope (full names, three-letter abbreviations, and `Sept`), compared
case-insensitively. -/
def monthNames : List (String × Int) :=
  [("january", 1), ("february", 2), ("march", 3), ("april", 4), ("may", 5),
   ("june", 6), ("july", 7), ("august", 8), ("september", 9), ("october", 10),
   ("november", 11), ("december", 12),
   ("jan", 1), ("feb", 2), ("mar", 3), ("apr", 4), ("jun", 6), ("jul", 7),
   ("aug", 8), ("sep", 9), ("sept", 9), ("oct", 10), ("nov", 11), ("dec", 12)]

def parseMonthName (w : String) : Option Int :=
  (monthNames.find? (fun p => p.1 == strLower w)).map (fun p => p.2)

/-- The `new Date("Month D, YYYY")` parse: known month name and a day in the
1-31 range give the civil day number, anything else is an invalid date. -/
def jsDateOf (monthWord : String) (day year : Nat) : Option Int :=
  match parseMonthName monthWord with
  | none => none
  | some m =>
    if 1 ≤ day && day ≤ 31 then some (daysFromCivil (Int.ofNat year) m (Int.ofNat day))
    else none

def digitsToNat (ds : List Char) : Nat :=
  ds.foldl (fun a c => a * 10 + (c.toNat - 48)) 0

/-- `formatRelativeTime(date, currentDate)` (src/index.ts:433-454) on day
numbers; `diffDays = Math.floor((current - date) / day)`. -/
def formatRelativeTime (dateDays currentDays : Int) : String :=
  let diffDays := currentDays - dateDays
  if diffDays < 0 then
    let futureDays := diffDays.natAbs
    if futureDays == 0 then "today"
    else if futureDays == 1 then "tomorrow"
    else if futureDays < 7 then s!"in {futureDays} days"
    else if futureDays < 14 then "in 1 week"
    else if futureDays < 30 then s!"in {futureDays / 7} weeks"
    else s!"in {futureDays / 30} month" ++ (if 1 < futureDays / 30 then "s" else "")
  else
    let dd := diffDays.toNat
    if dd == 0 then "today"
    else if dd == 1 then "yesterday"
    else if dd < 7 then s!"{dd} days ago"
    else if dd < 14 then "1 week ago"
    else if dd < 30 then s!"{dd / 7} weeks ago"
    else if dd < 60 then "1 month ago"
    else if dd < 365 then s!"{dd / 30} months ago"
    else s!"{dd / 365} year" ++ (if 1 < dd / 365 then "s" else "") ++ " ago"

/-- `formatGapBetweenDates(prevDate, currDate)` (src/index.ts:456-466). -/
def formatGapBetweenDates (prevDays currDays : Int) : Option String :=
  let diffDays := currDays - prevDays
  if diffDays ≤ 1 then none
  else
    let dd := diffDays.toNat
    if dd < 7 then some s!"[{dd} days later]"
    else if dd < 14 then some "[1 week later]"
    else if dd < 30 then some s!"[{dd / 7} weeks later]"
    else if dd < 60 then some "[1 month later]"
    else some s!"[{dd / 30} months later]"

/-! ### `parseDateFromContent` (src/index.ts:468-492) -/

/-- Match `[A-Z][a-z]+ \d{1,2}, \d{4}$` against a whole character list: the
date part of the `^(Date:\s*)([A-Z][a-z]+ \d{1,2}, \d{4})$` header regex
(src/index.ts:533).  Returns the parsed day number. -/
def parseHeaderDate (l : List Char) : Option Int :=
  match l with
  | [] => none
  | c :: rest =>
    if c.isUpper then
      let lowers := rest.takeWhile Char.isLower
      let afterMonth := rest.dropWhile Char.isLower
      if lowers.isEmpty then none
      else
        match afterMonth with
        | ' ' :: r2 =>
          let dayDigits := r2.takeWhile Char.isDigit
          if dayDigits.length = 0 || 2 < dayDigits.length then none
          else
            match r2.drop dayDigits.length with
            | ',' :: ' ' :: r3 =>
              let yearDigits := r3.takeWhile Char.isDigit
              if yearDigits.length == 4 && (r3.drop 4).isEmpty then
                jsDateOf (String.mk (c :: lowers)) (digitsToNat dayDigits)
                  (digitsToNat yearDigits)
              else none
            | _ => none
        | _ => none
    else none

/-- Case-insensitive prefix test. -/
def ciHeadMatches : List Char → List Char → Bool
  | [], _ => true
  | _ :: _, [] => false
  | n :: ns, h :: hs => n.toLower = h.toLower && ciHeadMatches ns hs

/-- Syntactic match of `([A-Z][a-z]+)\s+(\d{1,2}),?\s+(\d{4})` at the head of
the list (no anchors; a digit run of length ≥ 3 can complete neither the
two-digit nor the one-digit day alternative, and `\d{4}` takes the first four
digits of a longer run). -/
def matchSimpleDateHead (l : List Char) : Option (String × Nat × Nat) :=
  match l with
  | [] => none
  | c :: rest =>
    if !c.isUpper then none
    else
      let lowers := rest.takeWhile Char.isLower
      if lowers.isEmpty then none
      else
        let r1 := rest.dropWhile Char.isLower
        let ws1 := r1.takeWhile isJsWs
        if ws1.isEmpty then none
        else
          let r2 := r1.dropWhile isJsWs
          let dayDigits := r2.takeWhile Char.isDigit
          if dayDigits.length = 0 || 2 < dayDigits.length then none
          else
            let r3 := r2.drop dayDigits.length
            let r4 := match r3 with
              | ',' :: t => t
              | t => t
            let ws2 := r4.takeWhile isJsWs
            if ws2.isEmpty then none
            else
              let r5 := r4.dropWhile isJsWs
              let yearDigits := r5.takeWhile Char.isDigit
              if yearDigits.length < 4 then none
              else
                some (String.mk (c :: lowers), digitsToNat dayDigits,
                      digitsToNat (yearDigits.take 4))

/-- First position at which `matchSimpleDateHead` succeeds (the leftmost regex
match of the simple-date pattern). -/
def scanSimpleDate (l : List Char) : Option (String × Nat × Nat) :=
  match l with
  | [] => none
  | _ :: rest =>
    match matchSimpleDateHead l with
    | some r => some r
    | none => scanSimpleDate rest

/-- Syntactic match of `([A-Z][a-z]+)\s+(\d{1,2})-\d{1,2},?\s+(\d{4})` at the
head of the list; the first day of the range is used. -/
def matchRangeDateHead (l : List Char) : Option (String × Nat × Nat) :=
  match l with
  | [] => none
  | c :: rest =>
    if !c.isUpper then none
    else
      let lowers := rest.takeWhile Char.isLower
      if lowers.isEmpty then none
      else
        let r1 := rest.dropWhile Char.isLower
        let ws1 := r1.takeWhile isJsWs
        if ws1.isEmpty then none
        else
          let r2 := r1.dropWhile isJsWs
          let d1 := r2.takeWhile Char.isDigit
          if d1.length = 0 || 2 < d1.length then none
          else
            match r2.drop d1.length with
            | '-' :: r3 =>
              let d2 := r3.takeWhile Char.isDigit
              if d2.length = 0 || 2 < d2.length then none
              else
                let r4 := r3.drop d2.length
                let r5 := match r4 with
                  | ',' :: t => t
                  | t => t
                let ws2 := r5.takeWhile isJsWs
                if ws2.isEmpty then none
                else
                  let r6 := r5.dropWhile isJsWs
                  let yearDigits := r6.takeWhile Char.isDigit
                  if yearDigits.length < 4 then none
                  else
                    some (String.mk (c :: lowers), digitsToNat d1,
                          digitsToNat (yearDigits.take 4))
            | _ => none

def scanRangeDate (l : List Char) : Option (String × Nat × Nat) :=
  match l with
  | [] => none
  | _ :: rest =>
    match matchRangeDateHead l with
    | some r => some r
    | none => scanRangeDate rest

/-- After a `late|early|mid` keyword: the optional `[- ]?` separator, the
optional `to[- ]?(late|early|mid)[- ]?` middle group (tried first, as the regex
does), then the case-insensitive month word (`[A-Z][a-z]+` under the `i` flag:
a letter followed by at least one letter), `\s+`, and four digits. -/
def matchVagueTail (l : List Char) : Option (String × Nat) :=
  let sep := fun (t : List Char) =>
    match t with
    | '-' :: r => r
    | ' ' :: r => r
    | r => r
  let monthYear := fun (t : List Char) =>
    match t with
    | c :: rest =>
      if !c.isAlpha then none
      else
        let letters := rest.takeWhile Char.isAlpha
        if letters.isEmpty then none
        else
          let r1 := rest.dropWhile Char.isAlpha
          let ws := r1.takeWhile isJsWs
          if ws.isEmpty then none
          else
            let r2 := r1.dropWhile isJsWs
            let yearDigits := r2.takeWhile Char.isDigit
            if yearDigits.length < 4 then none
            else some (String.mk (c :: letters), digitsToNat (yearDigits.take 4))
    | [] => none
  let afterSep := sep l
  let withMiddle :=
    if ciHeadMatches "to".toList afterSep then
      let afterTo := sep (afterSep.drop 2)
      let tryKw := fun (kw : String) =>
        if ciHeadMatches kw.toList afterTo then
          monthYear (sep (afterTo.drop kw.toList.length))
        else none
      match tryKw "late" with
      | some r => some r
      | none =>
        match tryKw "early" with
        | some r => some r
        | none => tryKw "mid"
    else none
  match withMiddle with
  | some r => some r
  | none => monthYear afterSep

/-- Syntactic match of the vague-date pattern
`(late|early|mid)[- ]?(?:to[- ]?(?:late|early|mid)[- ]?)?([A-Z][a-z]+)\s+(\d{4})`
(case-insensitive) at the head of the list, returning
(modifier, month word, year). -/
def matchVagueDateHead (l : List Char) : Option (String × String × Nat) :=
  let tryKw := fun (kw : String) =>
    if ciHeadMatches kw.toList l then
      (matchVagueTail (l.drop kw.toList.length)).map (fun r => (kw, r.1, r.2))
    else none
  match tryKw "late" with
  | some r => some r
  | none =>
    match tryKw "early" with
    | some r => some r
    | none => tryKw "mid"

def scanVagueDate (l : List Char) : Option (String × String × Nat) :=
  match l with
  | [] => none
  | _ :: rest =>
    match matchVagueDateHead l with
    | some r => some r
    | none => scanVagueDate rest

/-- `parseDateFromContent(dateContent)` (src/index.ts:468-492): try the simple
date, then the range (first day), then the vague `late/early/mid` form with
day anchors 23/7/15; each pattern's first syntactic match is date-validated,
and an invalid date falls through to the next pattern. -/
def parseDateFromContent (dateContent : String) : Option Int :=
  let l := dateContent.toList
  let simple := (scanSimpleDate l).bind (fun r => jsDateOf r.1 r.2.1 r.2.2)
  match simple with
  | some v => some v
  | none =>
    let range := (scanRangeDate l).bind (fun r => jsDateOf r.1 r.2.1 r.2.2)
    match range with
    | some v => some v
    | none =>
      (scanVagueDate l).bind (fun r =>
        let modifier := strLower r.1
        let day : Nat := if modifier = "early" then 7 else if modifier = "late" then 23 else 15
        jsDateOf r.2.1 day r.2.2)

/-! ### `isFutureIntentObservation` (src/index.ts:494-506) -/

/-- Is there an occurrence of word `w` (case-insensitive, at a word boundary)
followed by `\s+` and then the word `to` at a word boundary?  This is the shape
of the `plans?/planning/going/intends?/wants?/needs?/about` patterns. -/
def hasWordThenTo (w : String) (l : List Char) : Bool :=
  let rec go (prevIsWord : Bool) : List Char → Bool
    | [] => false
    | c :: rest =>
      (!prevIsWord && ciHeadMatches w.toList (c :: rest) &&
        (let after := (c :: rest).drop w.toList.length
         let ws := after.takeWhile isJsWs
         let r1 := after.dropWhile isJsWs
         !ws.isEmpty && ciHeadMatches "to".toList r1 &&
           (match r1.drop 2 with
            | [] => true
            | d :: _ => !isWordChar d)))
      || go (isWordChar c) rest
  go false l

/-- `/\bwill\s+(?:be\s+)?(?:\w+ing|\w+)\b/i` simplifies to: the word `will`
followed by `\s+` and a word character (`(?:\w+ing|\w+)` is `\w+`, and the
optional `be\s+` group is subsumed by it). -/
def hasWillThenWord (l : List Char) : Bool :=
  let rec go (prevIsWord : Bool) : List Char → Bool
    | [] => false
    | c :: rest =>
      (!prevIsWord && ciHeadMatches "will".toList (c :: rest) &&
        (let after := (c :: rest).drop 4
         let ws := after.takeWhile isJsWs
         let r1 := after.dropWhile isJsWs
         !ws.isEmpty &&
           (match r1 with
            | [] => false
            | d :: _ => isWordChar d)))
      || go (isWordChar c) rest
  go false l

def isFutureIntentObservation (line : String) : Bool :=
  let l := line.toList
  hasWillThenWord l
  || (["plans", "plan", "planning", "going", "intends", "intend",
       "wants", "want", "needs", "need", "about"].any (fun w => hasWordThenTo w l))

/-! ### `expandInlineEstimatedDates` (src/index.ts:508-528) -/

/-- Attempt the inline-date regex `\((estimated|meaning)\s+([^)]+\d{4})\)` at a
`(` whose following characters are `afterParen`.  Returns the keyword as
written, the raw `\s+[^)]+\d{4}` span `S`, the captured date content (the
backtracking of greedy `\s+` against `[^)]+\d{4}` keeps `min w (|S| - 5)`
whitespace characters out of the capture), and the number of characters of
`afterParen` consumed including the closing `)`. -/
def tryInlineMatch (afterParen : List Char) : Option (String × String × String × Nat) :=
  let kwLen :=
    if ciHeadMatches "estimated".toList afterParen then some 9
    else if ciHeadMatches "meaning".toList afterParen then some 7
    else none
  match kwLen with
  | none => none
  | some klen =>
    let kwText := String.mk (afterParen.take klen)
    let after := afterParen.drop klen
    let S := after.takeWhile (fun c => c != ')')
    if (after.drop S.length).isEmpty then none
    else
      let w := (S.takeWhile isJsWs).length
      if w = 0 then none
      else if S.length < 6 then none
      else
        let last4 := S.drop (S.length - 4)
        if last4.all Char.isDigit then
          let k := Nat.min w (S.length - 5)
          some (kwText, String.mk S, String.mk (S.drop k), klen + S.length + 1)
        else none

/-- The replacement the `observations.replace` callback produces for one match
(src/index.ts:511-527).  `origChars` is the full original text: the callback
locates the line prefix via `observations.indexOf(match)`, i.e. the first
occurrence of the matched text.  The running clock is the current date at
midnight, so `targetDate < currentDate` is `targetDays < currentDays` (a
mid-day clock would also count today's date as past). -/
def inlineReplacement (origChars : List Char) (currentDays : Int)
    (kwText content matchText : String) : String :=
  match parseDateFromContent content with
  | none => matchText
  | some targetDays =>
    let relative := formatRelativeTime targetDays currentDays
    let matchIndex := (indexOfSeq origChars matchText.toList).getD 0
    let lineBefore :=
      String.mk (((origChars.take matchIndex).reverse.takeWhile (fun c => c != '\n')).reverse)
    let isPastDate := targetDays < currentDays
    let isFuture := isFutureIntentObservation lineBefore
    if isPastDate && isFuture then
      "(" ++ kwText ++ " " ++ content ++ " - " ++ relative ++ ", likely already happened)"
    else
      "(" ++ kwText ++ " " ++ content ++ " - " ++ relative ++ ")"

/-- The global left-to-right scan of `observations.replace(inlineDateRegex, …)`:
unmatched characters are copied, matches are replaced and the scan resumes
after the match (replacements are not rescanned).  The scan is structurally
recursive on a fuel bound; every step consumes at least one character, so fuel
equal to the text length makes the bound unreachable. -/
def expandInlineGo (origChars : List Char) (currentDays : Int) :
    Nat → List Char → List Char
  | 0, l => l
  | _ + 1, [] => []
  | fuel + 1, c :: rest =>
    if c = '(' then
      match tryInlineMatch rest with
      | some (kwText, sText, content, consumed) =>
        let matchText := "(" ++ kwText ++ sText ++ ")"
        let repl := inlineReplacement origChars currentDays kwText content matchText
        repl.toList ++ expandInlineGo origChars currentDays fuel (rest.drop consumed)
      | none => c :: expandInlineGo origChars currentDays fuel rest
    else c :: expandInlineGo origChars currentDays fuel rest

/-- `expandInlineEstimatedDates(observations, currentDate)`
(src/index.ts:508-528). -/
def expandInlineEstimatedDates (observations : String) (currentDays : Int) : String :=
  String.mk
    (expandInlineGo observations.toList currentDays observations.toList.length
      observations.toList)

/-! ### `addRelativeTimeToObservations` (src/index.ts:530-572) -/

/-- Match a whole line against the date-header regex
`^(Date:\s*)([A-Z][a-z]+ \d{1,2}, \d{4})$`, returning the `Date:\s*` prefix,
the date string, and its day number. -/
def parseDateHeaderLine (line : String) : Option (String × String × Int) :=
  match line.toList with
  | 'D' :: 'a' :: 't' :: 'e' :: ':' :: rest =>
    let ws := rest.takeWhile isJsWs
    let body := rest.dropWhile isJsWs
    match parseHeaderDate body with
    | some days =>
      some (String.mk ('D' :: 'a' :: 't' :: 'e' :: ':' :: ws), String.mk body, days)
    | none => none
  | _ => none

/-- The date-header pass of `addRelativeTimeToObservations`
(src/index.ts:533-571), expressed line by line (the regex is anchored to whole
lines, and the end-to-front index splicing amounts to rewriting each header
line and prepending a blank line and the gap marker when the gap from the
previous recognized header exceeds one day). -/
def annotateHeaderLines (currentDays : Int) (prev : Option Int) :
    List String → List String
  | [] => []
  | line :: rest =>
    match parseDateHeaderLine line with
    | none => line :: annotateHeaderLines currentDays prev rest
    | some (pfx, dateStr, days) =>
      let annotated := pfx ++ dateStr ++ " (" ++ formatRelativeTime days currentDays ++ ")"
      let withGap :=
        match prev with
        | none => [annotated]
        | some prevDays =>
          match formatGapBetweenDates prevDays days with
          | some gap => ["", gap, annotated]
          | none => [annotated]
      withGap ++ annotateHeaderLines currentDays (some days) rest

/-- `addRelativeTimeToObservations(observations, currentDate)`
(src/index.ts:530-572): the inline-date pass followed by the date-header pass.
With no recognized header the text is returned unchanged, which coincides with
re-joining the unmodified lines. -/
def addRelativeTimeToObservations (observations : String) (currentDays : Int) : String :=
  let withInlineDates := expandInlineEstimatedDates observations currentDays
  joinNl (annotateHeaderLines currentDays none (splitNl withInlineDates))

/-! ## State recovery (src/index.ts:1172-1192, 1717-1741) -/

/-- A persisted pending segment as `coerceState` sees it: each field is `some`
when the raw JSON field has the expected type and `none` otherwise (missing or
wrongly-typed).  Token counts in scope are non-negative integers. -/
structure RawPendingSegment where
  id : Option String
  createdAt : Option String
  text : Option String
  tokens : Option Nat
deriving DecidableEq, Repr

/-- Arbitrary persisted state data as `coerceState` sees it.  The raw
`isBufferingObservation` / `isBufferingReflection` / `pendingTokens` fields are
present but `coerceState` ignores them and hardcodes `false` / `false` / `0`. -/
structure RawOmState where
  storageScope : Option String
  observations : Option String
  observationTokens : Option Nat
  currentTask : Option String
  suggestedResponse : Option String
  observationRuns : Option Nat
  reflectionRuns : Option Nat
  lastObservedAt : Option String
  lastCompressionRatio : Option (Nat × Nat)
  reflections : Option (List ReflectionSnapshot)
  pendingSegments : Option (List RawPendingSegment)
  pendingTokens : Option Nat
  isBufferingObservation : Option Bool
  isBufferingReflection : Option Bool
deriving DecidableEq, Repr

/-- The per-segment coercion inside `coerceState` (src/index.ts:1731-1736);
`fallbackId` / `fallbackCreatedAt` stand for the `randomId("seg")` and
`new Date().toISOString()` defaults.  Note the token fallback is `0`, with no
clamp. -/
def coerceSegment (fallbackId fallbackCreatedAt : String) (r : RawPendingSegment) :
    PendingSegment where
  id := r.id.getD fallbackId
  createdAt := r.createdAt.getD fallbackCreatedAt
  text := r.text.getD ""
  tokens := r.tokens.getD 0

/-- `coerceState(raw)` (src/index.ts:1717-1741): every field is re-validated,
`reflections` is re-capped at 15, and — decisively — `pendingTokens` is reset
to `0` and both buffering flags to `false`, whatever the raw data said. -/
def coerceState (fallbackId fallbackCreatedAt : String) (raw : RawOmState) : OmState where
  version := 2
  storageScope := if raw.storageScope = some "resource" then .resource else .thread
  observations := raw.observations.getD ""
  observationTokens := raw.observationTokens.getD 0
  currentTask := raw.currentTask
  suggestedResponse := raw.suggestedResponse
  observationRuns := raw.observationRuns.getD 0
  reflectionRuns := raw.reflectionRuns.getD 0
  lastObservedAt := raw.lastObservedAt
  lastCompressionRatio := raw.lastCompressionRatio
  reflections := (raw.reflections.getD []).take 15
  pendingSegments := (raw.pendingSegments.getD []).map (coerceSegment fallbackId fallbackCreatedAt)
  pendingTokens := 0
  isBufferingObservation := false
  isBufferingReflection := false

/-- `loadState(ctx)` (src/index.ts:1172-1192) restricted to its state effects:
take the coerced persisted state when one was found (from SQLite or from the
session branch; `loaded = none` also covers the `!raw || typeof raw !==
"object"` guard of `coerceState`), fall back to a fresh initial state, and
recompute the pending counters. -/
def loadState (scope : StorageScope) (fallbackId fallbackCreatedAt : String)
    (loaded : Option RawOmState) : OmState :=
  let s := match loaded with
    | some raw => coerceState fallbackId fallbackCreatedAt raw
    | none => createInitialState scope
  recomputePendingCounters s

/-! ## Reachable engine states (for the pending-buffer invariant) -/

/-- States reachable by the engine within a session: the initial state (also
produced by the `om-clear` command), pending-segment appends, observer and
reflector runs, persistence effects, and recovery from persisted data whose
segments all carry the positive token counts that `pushPendingSegment` writes. -/
inductive ReachableOm : OmState → Prop where
  | init (scope : StorageScope) : ReachableOm (createInitialState scope)
  | push (id createdAt text : String) (tokens : Nat) {s : OmState} :
      ReachableOm s → ReachableOm (pushPendingSegment id createdAt text tokens s)
  | observe (cfg : OmConfig) (now : String) (triggerAutoReflect : Bool)
      (reflectCall : ExtCallResult) (call : ObserverCall) {s : OmState} :
      ReachableOm s →
      ReachableOm (observeNow cfg now triggerAutoReflect reflectCall s call).1
  | reflect (cfg : OmConfig) (now : String) (aggressive : Bool) (reason : String)
      (call : ExtCallResult) {s : OmState} :
      ReachableOm s → ReachableOm (reflectNow cfg now aggressive reason s call).1
  | turn (cfg : OmConfig) (now segId segCreatedAt segText : String) (segTokens : Nat)
      (reflectCall : ExtCallResult) (call : ObserverCall) {s : OmState} :
      ReachableOm s →
      ReachableOm (turnEnd cfg now segId segCreatedAt segText segTokens reflectCall call s).1
  | persist {s : OmState} : ReachableOm s → ReachableOm (persistEffects s)
  | load (scope : StorageScope) (fallbackId fallbackCreatedAt : String)
      (loaded : Option RawOmState) :
      (∀ raw ∈ ((loaded.map RawOmState.pendingSegments).join.getD []),
          1 ≤ raw.tokens.getD 0) →
      ReachableOm (loadState scope fallbackId fallbackCreatedAt loaded)

/-! ## Helper lemmas -/

theorem takeLastN_length (n : Nat) (l : List α) :
    (takeLastN n l).length = min n l.length := by
  simp only [takeLastN, List.length_drop]
  omega

theorem takeLastN_suffix (n : Nat) (l : List α) : takeLastN n l <:+ l :=
  List.drop_suffix _ _

theorem takeLastN_of_le {n : Nat} {l : List α} (h : l.length ≤ n) :
    takeLastN n l = l := by
  simp only [takeLastN]
  rw [Nat.sub_eq_zero_of_le h, List.drop_zero]

theorem jsSliceLast_of_pos {n : Nat} (h : 0 < n) (l : List α) :
    jsSliceLast n l = takeLastN n l := by
  simp [jsSliceLast, Nat.pos_iff_ne_zero.mp h]

theorem trimmedNonEmptyLines_empty : trimmedNonEmptyLines "" = [] := by decide

/-- `reflectNow` on a blocked or disabled state: every guard exit returns
`(s, some false)` unchanged. -/
theorem reflectNow_guard_exit (cfg : OmConfig) (now reason : String) (aggressive : Bool)
    (s : OmState) (call : ExtCallResult)
    (h : cfg.enableReflection = false ∨ jsTrim s.observations = "" ∨
         s.isBufferingReflection = true) :
    reflectNow cfg now aggressive reason s call = (s, some false) := by
  unfold reflectNow
  rcases h with h | h | h
  · simp [h]
  · cases hen : cfg.enableReflection
    · simp
    · simp [h]
  · cases hen : cfg.enableReflection
    · simp
    · by_cases h2 : jsTrim s.observations = ""
      · simp [h2]
      · simp [h, h2]

/-- The guard-passing success path of `reflectNow`: the run reports `true` and
the resulting observation text is determined by the parsed output alone,
independently of the previous document. -/
theorem reflectNow_success (cfg : OmConfig) (now reason : String) (aggressive : Bool)
    (s : OmState) (p : OmSections)
    (hen : cfg.enableReflection = true) (hobs : jsTrim s.observations ≠ "")
    (hflag : s.isBufferingReflection = false) (hp : jsTrim p.observations ≠ "") :
    (reflectNow cfg now aggressive reason s (.returns (some p))).2 = some true
    ∧ (reflectNow cfg now aggressive reason s (.returns (some p))).1.observations
        = joinNl (jsSliceLast cfg.maxObservationItems (trimmedNonEmptyLines p.observations)) := by
  unfold reflectNow runReflectorCall
  simp only [hen, Bool.not_true, if_neg hobs, hflag, if_neg hp]
  simp only [Bool.false_eq_true, if_false]
  constructor
  · trivial
  · show (persistEffects _).observations = _
    simp only [persistEffects, recomputePendingCounters]
    show mergeObservationItems cfg.maxObservationItems "" p.observations = _
    simp [mergeObservationItems, trimmedNonEmptyLines_empty]

/-- The guard-passing parse-failure path of `reflectNow` leaves the state
exactly as it was. -/
theorem reflectNow_parse_failure (cfg : OmConfig) (now reason : String) (aggressive : Bool)
    (s : OmState)
    (hen : cfg.enableReflection = true) (hobs : jsTrim s.observations ≠ "")
    (hflag : s.isBufferingReflection = false) :
    reflectNow cfg now aggressive reason s (.returns none) = (s, some false) := by
  unfold reflectNow runReflectorCall
  simp only [hen, Bool.not_true, if_neg hobs, hflag]
  simp only [Bool.false_eq_true, if_false]
  cases s
  simp_all

/-! ## Claim theorems -/

/-- C2: for every existing document and incoming observation text, the Observer
merge yields the last `min(cap, |D| + |N|)` trimmed non-empty lines of `D`
followed by `N` in original relative order (the selected lines are a suffix of
`D ++ N`), the concrete scenario `cap = 3`, `[A,B,C] ⧺ [D] ↦ [B,C,D]` holds,
and merging a normalized document with empty incoming text is a no-op. -/
theorem merge_append_then_cap (cap : Nat) (hcap : 0 < cap)
    (existingText incomingText : String) :
    mergeObservationItems cap existingText incomingText
      = joinNl (takeLastN cap
          (trimmedNonEmptyLines existingText ++ trimmedNonEmptyLines incomingText))
    ∧ (takeLastN cap
        (trimmedNonEmptyLines existingText ++ trimmedNonEmptyLines incomingText)).length
      = min cap
          ((trimmedNonEmptyLines existingText).length
            + (trimmedNonEmptyLines incomingText).length)
    ∧ takeLastN cap (trimmedNonEmptyLines existingText ++ trimmedNonEmptyLines incomingText)
        <:+ (trimmedNonEmptyLines existingText ++ trimmedNonEmptyLines incomingText)
    ∧ (IsNormalizedDoc existingText cap →
         mergeObservationItems cap existingText "" = existingText)
    ∧ mergeObservationItems 3 "A\nB\nC" "D" = "B\nC\nD" := by
  refine ⟨?_, ?_, ?_, ?_, by decide⟩
  · simp [mergeObservationItems, jsSliceLast_of_pos hcap]
  · rw [takeLastN_length, List.length_append]
  · exact takeLastN_suffix _ _
  · rintro ⟨hjoin, hlen⟩
    rw [show mergeObservationItems cap existingText ""
          = joinNl (jsSliceLast cap
              (trimmedNonEmptyLines existingText ++ trimmedNonEmptyLines "")) from rfl,
      trimmedNonEmptyLines_empty, List.append_nil, jsSliceLast_of_pos hcap,
      takeLastN_of_le hlen, hjoin]

theorem merge_append_then_cap_witness :
    mergeObservationItems 3 "A\nB\nC" "D"
      = joinNl (takeLastN 3 (trimmedNonEmptyLines "A\nB\nC" ++ trimmedNonEmptyLines "D"))
    ∧ mergeObservationItems 3 "A\nB\nC" "D" = "B\nC\nD"
    ∧ IsNormalizedDoc "A\nB" 3
    ∧ mergeObservationItems 3 "A\nB" "" = "A\nB" :=
  ⟨(merge_append_then_cap 3 (by decide) "A\nB\nC" "D").1,
   (merge_append_then_cap 3 (by decide) "A\nB\nC" "D").2.2.2.2,
   by decide,
   (merge_append_then_cap 3 (by decide) "A\nB" "").2.2.2.1 (by decide)⟩

/-- C1 counterexample: a successful Reflector run does not leave the document
exactly at the parsed output lines `L'`: with `maxObservationItems = 1` and
parsed output lines `[B, C]`, the run succeeds but the final document is `"C"`,
whose line list differs from `L' = [B, C]` (the merge caps output at
`maxObservationItems`; the same happens for the default cap 1200 with 1201
output lines). -/
theorem reflect_exact_replacement_counterexample :
    (reflectNow { DEFAULT_OM_CONFIG with maxObservationItems := 1 } "T" false "manual"
        { createInitialState .thread with observations := "A", observationTokens := 1 }
        (.returns (some ⟨"B\nC", none, none⟩))).2 = some true
    ∧ (reflectNow { DEFAULT_OM_CONFIG with maxObservationItems := 1 } "T" false "manual"
        { createInitialState .thread with observations := "A", observationTokens := 1 }
        (.returns (some ⟨"B\nC", none, none⟩))).1.observations = "C"
    ∧ trimmedNonEmptyLines "C" ≠ trimmedNonEmptyLines "B\nC" := by decide

/-- C1 (amended): a successful Reflector run replaces the document with the
last `min(cap, |L'|)` trimmed non-empty lines of the parsed output `L'` — an
expression independent of the previous document, so no line of the previous
document survives except insofar as it occurs in that suffix of `L'` — and a
parse failure (no recognizable observations section) leaves the state exactly
unchanged. -/
theorem reflect_replaces_capped (cfg : OmConfig) (now reason : String) (aggressive : Bool)
    (s : OmState) (p : OmSections)
    (hen : cfg.enableReflection = true) (hobs : jsTrim s.observations ≠ "")
    (hflag : s.isBufferingReflection = false) (hp : jsTrim p.observations ≠ "") :
    (reflectNow cfg now aggressive reason s (.returns (some p))).2 = some true
    ∧ (reflectNow cfg now aggressive reason s (.returns (some p))).1.observations
        = joinNl (jsSliceLast cfg.maxObservationItems (trimmedNonEmptyLines p.observations))
    ∧ reflectNow cfg now aggressive reason s (.returns none) = (s, some false) :=
  ⟨(reflectNow_success cfg now reason aggressive s p hen hobs hflag hp).1,
   (reflectNow_success cfg now reason aggressive s p hen hobs hflag hp).2,
   reflectNow_parse_failure cfg now reason aggressive s hen hobs hflag⟩

theorem reflect_replaces_capped_witness :
    (reflectNow DEFAULT_OM_CONFIG "T" false "manual"
        { createInitialState .thread with observations := "A" }
        (.returns (some ⟨"B\nC", none, none⟩))).2 = some true
    ∧ (reflectNow DEFAULT_OM_CONFIG "T" false "manual"
        { createInitialState .thread with observations := "A" }
        (.returns (some ⟨"B\nC", none, none⟩))).1.observations
      = joinNl (jsSliceLast DEFAULT_OM_CONFIG.maxObservationItems
          (trimmedNonEmptyLines "B\nC"))
    ∧ reflectNow DEFAULT_OM_CONFIG "T" false "manual"
        { createInitialState .thread with observations := "A" } (.returns none)
      = ({ createInitialState .thread with observations := "A" }, some false) :=
  ⟨(reflect_replaces_capped DEFAULT_OM_CONFIG "T" "manual" false
      { createInitialState .thread with observations := "A" } ⟨"B\nC", none, none⟩
      (by decide) (by decide) (by decide) (by decide)).1,
   (reflect_replaces_capped DEFAULT_OM_CONFIG "T" "manual" false
      { createInitialState .thread with observations := "A" } ⟨"B\nC", none, none⟩
      (by decide) (by decide) (by decide) (by decide)).2.1,
   (reflect_replaces_capped DEFAULT_OM_CONFIG "T" "manual" false
      { createInitialState .thread with observations := "A" } ⟨"B\nC", none, none⟩
      (by decide) (by decide) (by decide) (by decide)).2.2⟩

theorem observeAutoReflect_flag (cfg : OmConfig) (now : String) (rc : ExtCallResult)
    (s2 : OmState) :
    (observeAutoReflect cfg now rc s2).1.isBufferingObservation = false := by
  unfold observeAutoReflect
  split <;> rfl

theorem observeFinish_flag (cfg : OmConfig) (now : String) (k : Nat) (trig : Bool)
    (rc : ExtCallResult) (s : OmState) (oc : ObserverCall) :
    (observeFinish cfg now k trig rc s oc).1.isBufferingObservation = false := by
  unfold observeFinish runObserverCall
  cases oc with
  | throws => rfl
  | unavailable => rfl
  | output p =>
    by_cases hp : jsTrim p.observations = ""
    · simp only [if_pos hp]
    · simp only [if_neg hp]
      split
      · exact observeAutoReflect_flag cfg now rc _
      · rfl

theorem observeStart_some_flag (s : OmState) (x : OmState × String × Nat)
    (hx : observeStart s = some x) : x.1.isBufferingObservation = true := by
  unfold observeStart at hx
  by_cases h1 : s.pendingSegments.isEmpty
  · simp [h1] at hx
  · by_cases h2 : s.isBufferingObservation
    · simp [h1, h2] at hx
    · simp only [h1, Bool.false_eq_true, if_false, h2, if_neg] at hx
      obtain rfl := (Option.some_inj.mp hx).symm
      rfl

theorem observeNow_flag (cfg : OmConfig) (now : String) (trig : Bool)
    (rc : ExtCallResult) (s : OmState) (oc : ObserverCall)
    (h : s.isBufferingObservation = false) :
    (observeNow cfg now trig rc s oc).1.isBufferingObservation = false := by
  unfold observeNow
  cases hs : observeStart s with
  | none => exact h
  | some x => exact observeFinish_flag cfg now x.2.2 trig rc x.1 oc

theorem reflectNow_flag (cfg : OmConfig) (now reason : String) (aggressive : Bool)
    (s : OmState) (call : ExtCallResult)
    (h : s.isBufferingReflection = false) :
    (reflectNow cfg now aggressive reason s call).1.isBufferingReflection = false := by
  unfold reflectNow
  by_cases h1 : cfg.enableReflection
  · by_cases h2 : jsTrim s.observations = ""
    · simp [h1, h2, h]
    · simp only [h1, Bool.not_true, Bool.false_eq_true, if_false, if_neg h2, h, if_false]
      split
      · rfl
      · rfl
      · split <;> rfl
  · simp [h1, h]

theorem observeNow_blocked (cfg : OmConfig) (now : String) (trig : Bool)
    (rc : ExtCallResult) (s : OmState) (oc : ObserverCall)
    (h : s.isBufferingObservation = true) :
    observeNow cfg now trig rc s oc = (s, some false) := by
  unfold observeNow observeStart
  by_cases h1 : s.pendingSegments.isEmpty <;> simp [h1, h]

theorem observeStart_isSome (s : OmState)
    (h : s.isBufferingObservation = false) (hpend : s.pendingSegments ≠ []) :
    (observeStart s).isSome := by
  unfold observeStart
  have h1 : s.pendingSegments.isEmpty = false := by
    simpa [List.isEmpty_iff] using hpend
  simp [h1, h]

/-- C3: per-kind single flight.  A Reflector run is a no-op returning `false`
and leaving the state untouched while `isBufferingReflection` is set, and
likewise an Observer run while `isBufferingObservation` is set; a started
Observer run has its flag set before the external call; after any run —
including one whose external call throws — the run's flag is back to `false`;
and neither kind blocks the other: an Observer run starts while the reflection
flag is set (only its own flag and an empty buffer can stop it), and a
Reflector run succeeds while the observation flag is set. -/
theorem single_flight_flags (cfg : OmConfig) (now reason : String)
    (aggressive triggerAutoReflect : Bool) (rc rc2 : ExtCallResult)
    (oc : ObserverCall) (s : OmState) (p : OmSections) :
    (s.isBufferingReflection = true →
       reflectNow cfg now aggressive reason s rc = (s, some false))
    ∧ (s.isBufferingObservation = true →
       observeNow cfg now triggerAutoReflect rc2 s oc = (s, some false))
    ∧ (∀ x, observeStart s = some x → x.1.isBufferingObservation = true)
    ∧ (s.isBufferingObservation = false →
       (observeNow cfg now triggerAutoReflect rc2 s oc).1.isBufferingObservation = false)
    ∧ (s.isBufferingReflection = false →
       (reflectNow cfg now aggressive reason s rc).1.isBufferingReflection = false)
    ∧ (s.isBufferingObservation = false → s.pendingSegments ≠ [] →
       (observeStart s).isSome)
    ∧ (cfg.enableReflection = true → jsTrim s.observations ≠ "" →
       s.isBufferingReflection = false → jsTrim p.observations ≠ "" →
       (reflectNow cfg now aggressive reason s (.returns (some p))).2 = some true) :=
  ⟨fun h => reflectNow_guard_exit cfg now reason aggressive s rc (.inr (.inr h)),
   fun h => observeNow_blocked cfg now triggerAutoReflect rc2 s oc h,
   fun x hx => observeStart_some_flag s x hx,
   fun h => observeNow_flag cfg now triggerAutoReflect rc2 s oc h,
   fun h => reflectNow_flag cfg now reason aggressive s rc h,
   fun h hp => observeStart_isSome s h hp,
   fun hen hobs hflag hp =>
     (reflectNow_success cfg now reason aggressive s p hen hobs hflag hp).1⟩

theorem single_flight_flags_witness :
    (reflectNow DEFAULT_OM_CONFIG "T" false "manual"
        { createInitialState .thread with observations := "A", isBufferingReflection := true }
        .throws
      = ({ createInitialState .thread with observations := "A", isBufferingReflection := true },
         some false))
    ∧ (observeNow DEFAULT_OM_CONFIG "T" true (.returns none)
        { createInitialState .thread with
            pendingSegments := [⟨"s1", "t0", "turn", 7⟩], pendingTokens := 7,
            isBufferingObservation := true }
        (.output ⟨"* obs", none, none⟩)
      = ({ createInitialState .thread with
            pendingSegments := [⟨"s1", "t0", "turn", 7⟩], pendingTokens := 7,
            isBufferingObservation := true }, some false))
    ∧ (observeNow DEFAULT_OM_CONFIG "T" true (.returns none)
        { createInitialState .thread with
            pendingSegments := [⟨"s1", "t0", "turn", 7⟩], pendingTokens := 7,
            isBufferingReflection := true }
        .throws).1.isBufferingObservation = false
    ∧ ((observeStart { createInitialState .thread with
            pendingSegments := [⟨"s1", "t0", "turn", 7⟩], pendingTokens := 7,
            isBufferingReflection := true }).isSome)
    ∧ (reflectNow DEFAULT_OM_CONFIG "T" false "manual"
        { createInitialState .thread with
            observations := "A", isBufferingObservation := true }
        (.returns (some ⟨"B", none, none⟩))).2 = some true :=
  ⟨(single_flight_flags DEFAULT_OM_CONFIG "T" "manual" false true .throws .throws
      (.output ⟨"* obs", none, none⟩)
      { createInitialState .thread with observations := "A", isBufferingReflection := true }
      ⟨"B", none, none⟩).1 (by decide),
   (single_flight_flags DEFAULT_OM_CONFIG "T" "manual" false true .throws (.returns none)
      (.output ⟨"* obs", none, none⟩)
      { createInitialState .thread with
          pendingSegments := [⟨"s1", "t0", "turn", 7⟩], pendingTokens := 7,
          isBufferingObservation := true }
      ⟨"B", none, none⟩).2.1 (by decide),
   (single_flight_flags DEFAULT_OM_CONFIG "T" "manual" false true .throws .throws
      .throws
      { createInitialState .thread with
          pendingSegments := [⟨"s1", "t0", "turn", 7⟩], pendingTokens := 7,
          isBufferingReflection := true }
      ⟨"B", none, none⟩).2.2.2.1 (by decide),
   (single_flight_flags DEFAULT_OM_CONFIG "T" "manual" false true .throws .throws
      .throws
      { createInitialState .thread with
          pendingSegments := [⟨"s1", "t0", "turn", 7⟩], pendingTokens := 7,
          isBufferingReflection := true }
      ⟨"B", none, none⟩).2.2.2.2.2.1 (by decide) (by decide),
   (single_flight_flags DEFAULT_OM_CONFIG "T" "manual" false true
      (.returns (some ⟨"B", none, none⟩)) .throws .throws
      { createInitialState .thread with
          observations := "A", isBufferingObservation := true }
      ⟨"B", none, none⟩).2.2.2.2.2.2 (by decide) (by decide) (by decide) (by decide)⟩

/-- C5: an Observer run whose external call yields text with an empty parsed
observations section fails and leaves the state exactly unchanged — in
particular `observationRuns` keeps its prior value, the observation text is
unmodified, and the pending segments remain non-empty (they are not cleared). -/
theorem observe_empty_parse_no_change (cfg : OmConfig) (now : String) (trig : Bool)
    (rc : ExtCallResult) (s : OmState) (p : OmSections)
    (hpend : s.pendingSegments ≠ []) (hflag : s.isBufferingObservation = false)
    (hp : jsTrim p.observations = "") :
    observeNow cfg now trig rc s (.output p) = (s, some false)
    ∧ (observeNow cfg now trig rc s (.output p)).1.observationRuns = s.observationRuns
    ∧ (observeNow cfg now trig rc s (.output p)).1.observations = s.observations
    ∧ (observeNow cfg now trig rc s (.output p)).1.pendingSegments ≠ [] := by
  have h1 : s.pendingSegments.isEmpty = false := by
    simpa [List.isEmpty_iff] using hpend
  have hmain : observeNow cfg now trig rc s (.output p) = (s, some false) := by
    unfold observeNow observeStart observeFinish runObserverCall
    simp only [h1, Bool.false_eq_true, if_false, hflag, if_pos hp, if_neg]
    cases s
    simp_all
  exact ⟨hmain, by rw [hmain], by rw [hmain], by rw [hmain]; exact hpend⟩

theorem observe_empty_parse_no_change_witness :
    observeNow DEFAULT_OM_CONFIG "T" true (.returns none)
        { createInitialState .thread with
            pendingSegments := [⟨"s1", "t0", "turn", 7⟩], pendingTokens := 7 }
        (.output ⟨"   ", none, none⟩)
      = ({ createInitialState .thread with
            pendingSegments := [⟨"s1", "t0", "turn", 7⟩], pendingTokens := 7 }, some false) :=
  (observe_empty_parse_no_change DEFAULT_OM_CONFIG "T" true (.returns none)
    { createInitialState .thread with
        pendingSegments := [⟨"s1", "t0", "turn", 7⟩], pendingTokens := 7 }
    ⟨"   ", none, none⟩ (by decide) (by decide) (by decide)).1

/-- C4 (evaluation of the code at the failing input): an Observer run starts on
a buffer holding only segment `seg_a` — the snapshot transcript sent to the
external call is `"turn one"` — and while the call is in flight a second
segment `seg_b` is appended; when the run completes successfully,
`observeNow`'s `state.pendingSegments = []` blanket-clears the whole buffer, so
`seg_b`, which was never part of the snapshot, is dropped instead of remaining
pending. -/
theorem observe_clear_drops_interleaved_append :
    (observeStart { createInitialState .thread with
        pendingSegments := [⟨"seg_a", "t0", "turn one", 10⟩], pendingTokens := 10 }
      = some ({ createInitialState .thread with
            pendingSegments := [⟨"seg_a", "t0", "turn one", 10⟩], pendingTokens := 10,
            isBufferingObservation := true }, "turn one", 10))
    ∧ (pushPendingSegment "seg_b" "t1" "turn two" 5
        { createInitialState .thread with
            pendingSegments := [⟨"seg_a", "t0", "turn one", 10⟩], pendingTokens := 10,
            isBufferingObservation := true }).pendingSegments
      = [⟨"seg_a", "t0", "turn one", 10⟩, ⟨"seg_b", "t1", "turn two", 5⟩]
    ∧ (observeFinish DEFAULT_OM_CONFIG "T" 10 false (.returns none)
        (pushPendingSegment "seg_b" "t1" "turn two" 5
          { createInitialState .thread with
              pendingSegments := [⟨"seg_a", "t0", "turn one", 10⟩], pendingTokens := 10,
              isBufferingObservation := true })
        (.output ⟨"* obs line", none, none⟩)).2 = some true
    ∧ (observeFinish DEFAULT_OM_CONFIG "T" 10 false (.returns none)
        (pushPendingSegment "seg_b" "t1" "turn two" 5
          { createInitialState .thread with
              pendingSegments := [⟨"seg_a", "t0", "turn one", 10⟩], pendingTokens := 10,
              isBufferingObservation := true })
        (.output ⟨"* obs line", none, none⟩)).1.pendingSegments = [] := by decide

theorem pushPendingSegment_segments (id createdAt text : String) (tokens : Nat)
    (s : OmState) :
    (pushPendingSegment id createdAt text tokens s).pendingSegments
      = s.pendingSegments
        ++ [{ id := id, createdAt := createdAt, text := text,
              tokens := Nat.max 1 tokens }] := rfl

/-- C6: after the `turn_end` append, a positive `autoObservePendingTokenThreshold`
reached by the pending tokens initiates an Observer run (the handler enters the
auto-observe branch, and with no Observer run active `observeStart` succeeds,
i.e. the run actually starts without manual invocation); a threshold of `0`
never triggers. -/
theorem auto_observe_threshold (cfg : OmConfig) (now segId segCreatedAt segText : String)
    (segTokens : Nat) (rc : ExtCallResult) (oc : ObserverCall) (s : OmState) :
    (0 < cfg.autoObservePendingTokenThreshold →
     cfg.autoObservePendingTokenThreshold
        ≤ (pushPendingSegment segId segCreatedAt segText segTokens s).pendingTokens →
     (turnEnd cfg now segId segCreatedAt segText segTokens rc oc s).2
        ≠ AutoObserveOutcome.notTriggered
     ∧ ((pushPendingSegment segId segCreatedAt segText segTokens s).isBufferingObservation
            = false →
        (observeStart (pushPendingSegment segId segCreatedAt segText segTokens s)).isSome))
    ∧ (cfg.autoObservePendingTokenThreshold = 0 →
       (turnEnd cfg now segId segCreatedAt segText segTokens rc oc s).2
          = AutoObserveOutcome.notTriggered) := by
  have hne : (pushPendingSegment segId segCreatedAt segText segTokens s).pendingSegments ≠ [] := by
    rw [pushPendingSegment_segments]
    simp
  constructor
  · intro h0 h1
    constructor
    · unfold turnEnd
      rw [if_pos ⟨h0, h1, by rw [pushPendingSegment_segments]; simp⟩]
      split
      · simp
      · simp
    · intro hflag
      exact observeStart_isSome _ hflag hne
  · intro h0
    unfold turnEnd
    rw [if_neg (by simp [h0])]

theorem auto_observe_threshold_witness :
    (turnEnd DEFAULT_OM_CONFIG "T" "s2" "t1" "turn two" 4000 (.returns none)
        (.output ⟨"* obs", none, none⟩)
        { createInitialState .thread with
            pendingSegments := [⟨"s1", "t0", "turn one", 5000⟩], pendingTokens := 5000 }).2
      ≠ AutoObserveOutcome.notTriggered
    ∧ (observeStart (pushPendingSegment "s2" "t1" "turn two" 4000
        { createInitialState .thread with
            pendingSegments := [⟨"s1", "t0", "turn one", 5000⟩],
            pendingTokens := 5000 })).isSome
    ∧ (turnEnd { DEFAULT_OM_CONFIG with autoObservePendingTokenThreshold := 0 }
        "T" "s2" "t1" "turn two" 4000 (.returns none) (.output ⟨"* obs", none, none⟩)
        { createInitialState .thread with
            pendingSegments := [⟨"s1", "t0", "turn one", 5000⟩], pendingTokens := 5000 }).2
      = AutoObserveOutcome.notTriggered :=
  ⟨((auto_observe_threshold DEFAULT_OM_CONFIG "T" "s2" "t1" "turn two" 4000 (.returns none)
      (.output ⟨"* obs", none, none⟩)
      { createInitialState .thread with
          pendingSegments := [⟨"s1", "t0", "turn one", 5000⟩], pendingTokens := 5000 }).1
      (by decide) (by decide)).1,
   ((auto_observe_threshold DEFAULT_OM_CONFIG "T" "s2" "t1" "turn two" 4000 (.returns none)
      (.output ⟨"* obs", none, none⟩)
      { createInitialState .thread with
          pendingSegments := [⟨"s1", "t0", "turn one", 5000⟩], pendingTokens := 5000 }).1
      (by decide) (by decide)).2 (by decide),
   (auto_observe_threshold { DEFAULT_OM_CONFIG with autoObservePendingTokenThreshold := 0 }
      "T" "s2" "t1" "turn two" 4000 (.returns none) (.output ⟨"* obs", none, none⟩)
      { createInitialState .thread with
          pendingSegments := [⟨"s1", "t0", "turn one", 5000⟩], pendingTokens := 5000 }).2
      (by decide)⟩

/-! ### Budget lemmas for the retrieval engine -/

/-- Cumulative token estimate of a line list (`roughTextTokenizer` with no
model hint, as `trimLinesToTokenBudget` computes it). -/
def sumLineTokens (ls : List String) : Nat :=
  (ls.map (fun l => roughTextTokenizer l none)).sum

theorem trimBudgetRest_sum (maxT : Nat) :
    ∀ (lines : List String) (used : Nat),
      trimBudgetRest maxT used lines = []
      ∨ used + sumLineTokens (trimBudgetRest maxT used lines) ≤ maxT := by
  intro lines
  induction lines with
  | nil => intro used; exact .inl rfl
  | cons line rest ih =>
    intro used
    unfold trimBudgetRest
    by_cases h : maxT < used + roughTextTokenizer line none
    · exact .inl (by simp [h])
    · right
      simp only [if_neg h]
      rcases ih (used + roughTextTokenizer line none) with h2 | h2
      · rw [h2]
        simp only [sumLineTokens, List.map_cons, List.map_nil, List.sum_cons, List.sum_nil]
        omega
      · simp only [sumLineTokens, List.map_cons, List.sum_cons] at h2 ⊢
        omega

theorem trimLines_sum (lines : List String) (maxT : Nat)
    (h : 1 < (trimLinesToTokenBudget lines maxT).length) :
    sumLineTokens (trimLinesToTokenBudget lines maxT) ≤ maxT := by
  cases lines with
  | nil => simp [trimLinesToTokenBudget] at h
  | cons first rest =>
    rw [show trimLinesToTokenBudget (first :: rest) maxT
          = first :: trimBudgetRest maxT (roughTextTokenizer first none) rest from rfl] at h ⊢
    rcases trimBudgetRest_sum maxT rest (roughTextTokenizer first none) with h2 | h2
    · rw [h2] at h
      simp at h
    · simp only [sumLineTokens, List.map_cons, List.sum_cons] at h2 ⊢
      omega

theorem trimLines_length_one (lines : List String) (maxT : Nat)
    (h : (trimLinesToTokenBudget lines maxT).length = 1) :
    trimLinesToTokenBudget lines maxT = lines.take 1 := by
  cases lines with
  | nil => simp [trimLinesToTokenBudget] at h
  | cons first rest =>
    rw [show trimLinesToTokenBudget (first :: rest) maxT
          = first :: trimBudgetRest maxT (roughTextTokenizer first none) rest from rfl] at h ⊢
    have h0 : trimBudgetRest maxT (roughTextTokenizer first none) rest = [] := by
      rw [List.length_cons] at h
      exact List.length_eq_zero.mp (by omega)
    rw [h0]
    rfl

theorem trimLines_ne_nil (lines : List String) (maxT : Nat) (h : lines ≠ []) :
    trimLinesToTokenBudget lines maxT ≠ [] := by
  cases lines with
  | nil => exact absurd rfl h
  | cons first rest => simp [trimLinesToTokenBudget]

theorem trimLines_head (lines : List String) (maxT : Nat) (h : lines ≠ []) :
    (trimLinesToTokenBudget lines maxT).head? = lines.head? := by
  cases lines with
  | nil => exact absurd rfl h
  | cons first rest => rfl

theorem sumLineTokens_reverse (ls : List String) :
    sumLineTokens ls.reverse = sumLineTokens ls := by
  simp [sumLineTokens, List.map_reverse, List.sum_reverse]

/-- C7: core+relevant selection respects its token budgets.  Whenever the core
set holds more than one line its cumulative estimate is within
`coreMemoryMaxTokens`, and a single-line core is exactly the most recent
observation line forced in alone; symmetrically for the relevant set against
`relevantObservationMaxTokens`, where a single-line selection is the top-ranked
candidate forced in alone.  A non-empty document always yields a non-empty
core, because `trimLinesToTokenBudget` always keeps its first line even when
that line alone exceeds the budget. -/
theorem core_relevant_budgets (cfg : OmConfig) (s : OmState) (msgs : List String) :
    (1 < (buildCoreAndRelevantObservations cfg s msgs).1.length →
       sumLineTokens (buildCoreAndRelevantObservations cfg s msgs).1
         ≤ cfg.coreMemoryMaxTokens)
    ∧ ((buildCoreAndRelevantObservations cfg s msgs).1.length = 1 →
       (buildCoreAndRelevantObservations cfg s msgs).1
         = (trimmedNonEmptyLines s.observations).reverse.take 1)
    ∧ (1 < (buildCoreAndRelevantObservations cfg s msgs).2.length →
       sumLineTokens (buildCoreAndRelevantObservations cfg s msgs).2
         ≤ cfg.relevantObservationMaxTokens)
    ∧ ((buildCoreAndRelevantObservations cfg s msgs).2.length = 1 →
       (buildCoreAndRelevantObservations cfg s msgs).2
         = (relevantCandidates cfg (trimmedNonEmptyLines s.observations)
             (coreLinesOf cfg (trimmedNonEmptyLines s.observations)) msgs).take 1)
    ∧ (trimmedNonEmptyLines s.observations ≠ [] →
       (buildCoreAndRelevantObservations cfg s msgs).1 ≠ [])
    ∧ (∀ (lines : List String) (maxT : Nat), lines ≠ [] →
       (trimLinesToTokenBudget lines maxT).head? = lines.head?) := by
  by_cases hempty : (trimmedNonEmptyLines s.observations).isEmpty
  · have hb : buildCoreAndRelevantObservations cfg s msgs = ([], []) := by
      unfold buildCoreAndRelevantObservations
      rw [if_pos hempty]
    rw [List.isEmpty_iff] at hempty
    refine ⟨?_, ?_, ?_, ?_, ?_, fun lines maxT h => trimLines_head lines maxT h⟩ <;>
      rw [hb] <;> simp [hempty]
  · have hbuild : buildCoreAndRelevantObservations cfg s msgs
        = (coreLinesOf cfg (trimmedNonEmptyLines s.observations),
           trimLinesToTokenBudget
             (relevantCandidates cfg (trimmedNonEmptyLines s.observations)
               (coreLinesOf cfg (trimmedNonEmptyLines s.observations)) msgs)
             cfg.relevantObservationMaxTokens) := by
      unfold buildCoreAndRelevantObservations
      rw [if_neg (by simp [hempty])]
    rw [hbuild]
    dsimp only
    refine ⟨?_, ?_, ?_, ?_, ?_, fun lines maxT h => trimLines_head lines maxT h⟩
    · intro h
      unfold coreLinesOf at h ⊢
      rw [List.length_reverse] at h
      rw [sumLineTokens_reverse]
      exact trimLines_sum _ _ h
    · intro h
      unfold coreLinesOf at h ⊢
      rw [List.length_reverse] at h
      rw [trimLines_length_one _ _ h]
      have : (trimmedNonEmptyLines s.observations).reverse.take 1
          = ((trimmedNonEmptyLines s.observations).reverse.take 1).reverse := by
        rcases (trimmedNonEmptyLines s.observations).reverse with _ | ⟨a, t⟩ <;> simp
      rw [← this]
    · intro h
      exact trimLines_sum _ _ h
    · intro h
      exact trimLines_length_one _ _ h
    · intro h
      unfold coreLinesOf
      have := trimLines_ne_nil (trimmedNonEmptyLines s.observations).reverse
        cfg.coreMemoryMaxTokens (by simpa using h)
      simpa using this

theorem core_relevant_budgets_witness :
    (1 < (buildCoreAndRelevantObservations DEFAULT_OM_CONFIG
        { createInitialState .thread with
            observations := "alpha beta\ngamma delta\nepsilon zeta" } ["irrelevant"]).1.length
     ∧ sumLineTokens (buildCoreAndRelevantObservations DEFAULT_OM_CONFIG
        { createInitialState .thread with
            observations := "alpha beta\ngamma delta\nepsilon zeta" } ["irrelevant"]).1
       ≤ DEFAULT_OM_CONFIG.coreMemoryMaxTokens)
    ∧ ((buildCoreAndRelevantObservations { DEFAULT_OM_CONFIG with coreMemoryMaxTokens := 3 }
        { createInitialState .thread with
            observations := "alpha beta\ngamma delta\nepsilon zeta" }
        ["gamma question about alpha"]).1
      = (trimmedNonEmptyLines "alpha beta\ngamma delta\nepsilon zeta").reverse.take 1)
    ∧ (1 < (buildCoreAndRelevantObservations { DEFAULT_OM_CONFIG with coreMemoryMaxTokens := 3 }
        { createInitialState .thread with
            observations := "alpha beta\ngamma delta\nepsilon zeta" }
        ["gamma question about alpha"]).2.length
     ∧ sumLineTokens (buildCoreAndRelevantObservations
        { DEFAULT_OM_CONFIG with coreMemoryMaxTokens := 3 }
        { createInitialState .thread with
            observations := "alpha beta\ngamma delta\nepsilon zeta" }
        ["gamma question about alpha"]).2
       ≤ DEFAULT_OM_CONFIG.relevantObservationMaxTokens)
    ∧ (trimLinesToTokenBudget ["over budget line"] 0).head? = some "over budget line" :=
  ⟨⟨by decide,
    (core_relevant_budgets DEFAULT_OM_CONFIG
      { createInitialState .thread with
          observations := "alpha beta\ngamma delta\nepsilon zeta" } ["irrelevant"]).1
      (by decide)⟩,
   (core_relevant_budgets { DEFAULT_OM_CONFIG with coreMemoryMaxTokens := 3 }
      { createInitialState .thread with
          observations := "alpha beta\ngamma delta\nepsilon zeta" }
      ["gamma question about alpha"]).2.1 (by decide),
   ⟨by decide,
    (core_relevant_budgets { DEFAULT_OM_CONFIG with coreMemoryMaxTokens := 3 }
      { createInitialState .thread with
          observations := "alpha beta\ngamma delta\nepsilon zeta" }
      ["gamma question about alpha"]).2.2.1 (by decide)⟩,
   (core_relevant_budgets DEFAULT_OM_CONFIG (createInitialState .thread) []).2.2.2.2.2
     ["over budget line"] 0 (by decide)⟩

/-! ### Pending-buffer invariant (C9) -/

/-- The pending-buffer invariant maintained by every engine operation: every
segment carries at least one token and the cached total equals the sum. -/
def PendingInv (s : OmState) : Prop :=
  (∀ seg ∈ s.pendingSegments, 1 ≤ seg.tokens)
  ∧ s.pendingTokens = sumSegmentTokens s.pendingSegments

theorem sumSegmentTokens_append (a b : List PendingSegment) :
    sumSegmentTokens (a ++ b) = sumSegmentTokens a + sumSegmentTokens b := by
  simp [sumSegmentTokens, List.sum_append]

theorem length_le_sumSegmentTokens (segs : List PendingSegment)
    (h : ∀ seg ∈ segs, 1 ≤ seg.tokens) :
    segs.length ≤ sumSegmentTokens segs := by
  induction segs with
  | nil => simp [sumSegmentTokens]
  | cons x xs ih =>
    have hx := h x (by simp)
    have hxs := ih (fun seg hm => h seg (by simp [hm]))
    simp only [sumSegmentTokens, List.length_cons, List.map_cons, List.sum_cons] at hxs ⊢
    omega

theorem pendingInv_push (id createdAt text : String) (tokens : Nat) (s : OmState)
    (h : PendingInv s) :
    PendingInv (pushPendingSegment id createdAt text tokens s) := by
  refine ⟨?_, rfl⟩
  intro seg hmem
  rw [pushPendingSegment_segments] at hmem
  rcases List.mem_append.mp hmem with hm | hm
  · exact h.1 seg hm
  · simp only [List.mem_singleton] at hm
    subst hm
    exact Nat.le_max_left 1 tokens

theorem pendingInv_reflect (cfg : OmConfig) (now reason : String) (aggressive : Bool)
    (s : OmState) (call : ExtCallResult) (h : PendingInv s) :
    PendingInv (reflectNow cfg now aggressive reason s call).1 := by
  unfold reflectNow
  by_cases h1 : cfg.enableReflection
  · by_cases h2 : jsTrim s.observations = ""
    · simp only [h1, Bool.not_true, Bool.false_eq_true, if_false, if_pos h2]
      exact h
    · by_cases h3 : s.isBufferingReflection
      · simp only [h1, Bool.not_true, Bool.false_eq_true, if_false, if_neg h2, h3, if_true]
        exact h
      · simp only [h1, Bool.not_true, Bool.false_eq_true, if_false, if_neg h2, h3]
        split
        · exact h
        · exact h
        · split
          · exact h
          · exact ⟨h.1, rfl⟩
  · simp only [h1, Bool.not_false, if_true]
    exact h

theorem pendingInv_observeAutoReflect (cfg : OmConfig) (now : String) (rc : ExtCallResult)
    (s2 : OmState) (h : PendingInv s2) :
    PendingInv (observeAutoReflect cfg now rc s2).1 := by
  unfold observeAutoReflect
  rcases hr : reflectNow cfg now false "auto-periodic" s2 rc with ⟨s3, r⟩
  have hres := pendingInv_reflect cfg now "auto-periodic" false s2 rc h
  rw [hr] at hres
  cases r
  · exact ⟨hres.1, hres.2⟩
  · exact ⟨hres.1, hres.2⟩

theorem pendingInv_observeFinish (cfg : OmConfig) (now : String) (k : Nat) (trig : Bool)
    (rc : ExtCallResult) (s : OmState) (oc : ObserverCall) (h : PendingInv s) :
    PendingInv (observeFinish cfg now k trig rc s oc).1 := by
  unfold observeFinish runObserverCall
  cases oc with
  | throws => exact h
  | unavailable => exact h
  | output p =>
    by_cases hp : jsTrim p.observations = ""
    · simp only [if_pos hp]
      exact h
    · simp only [if_neg hp]
      split
      · exact pendingInv_observeAutoReflect cfg now rc _ ⟨by simp, rfl⟩
      · exact ⟨by simp, rfl⟩

theorem observeStart_some_eq (s : OmState) (x : OmState × String × Nat)
    (hx : observeStart s = some x) :
    x.1 = { s with isBufferingObservation := true } := by
  unfold observeStart at hx
  by_cases h1 : s.pendingSegments.isEmpty
  · simp [h1] at hx
  · by_cases h2 : s.isBufferingObservation
    · simp [h1, h2] at hx
    · simp only [h1, Bool.false_eq_true, if_false, h2, if_neg] at hx
      obtain rfl := (Option.some_inj.mp hx).symm
      rfl

theorem pendingInv_observe (cfg : OmConfig) (now : String) (trig : Bool)
    (rc : ExtCallResult) (s : OmState) (oc : ObserverCall) (h : PendingInv s) :
    PendingInv (observeNow cfg now trig rc s oc).1 := by
  unfold observeNow
  cases hst : observeStart s with
  | none => exact h
  | some x =>
    have hx := observeStart_some_eq s x hst
    have hinv : PendingInv x.1 := by rw [hx]; exact h
    exact pendingInv_observeFinish cfg now x.2.2 trig rc x.1 oc hinv

theorem pendingInv_turnEnd (cfg : OmConfig) (now segId segCreatedAt segText : String)
    (segTokens : Nat) (rc : ExtCallResult) (oc : ObserverCall) (s : OmState)
    (h : PendingInv s) :
    PendingInv (turnEnd cfg now segId segCreatedAt segText segTokens rc oc s).1 := by
  unfold turnEnd
  have hp := pendingInv_push segId segCreatedAt segText segTokens s h
  by_cases hcond : 0 < cfg.autoObservePendingTokenThreshold
      ∧ cfg.autoObservePendingTokenThreshold
          ≤ (pushPendingSegment segId segCreatedAt segText segTokens s).pendingTokens
      ∧ 0 < (pushPendingSegment segId segCreatedAt segText segTokens s).pendingSegments.length
  · rw [if_pos hcond]
    rcases ho : observeNow cfg now true rc
        (pushPendingSegment segId segCreatedAt segText segTokens s) oc with ⟨s2, r⟩
    have hres := pendingInv_observe cfg now true rc
      (pushPendingSegment segId segCreatedAt segText segTokens s) oc hp
    rw [ho] at hres
    cases r
    · exact hres
    · exact ⟨hres.1, rfl⟩
  · rw [if_neg hcond]
    exact ⟨hp.1, rfl⟩

theorem pendingInv_load (scope : StorageScope) (fallbackId fallbackCreatedAt : String)
    (loaded : Option RawOmState)
    (hseg : ∀ raw ∈ ((loaded.map RawOmState.pendingSegments).join.getD []),
        1 ≤ raw.tokens.getD 0) :
    PendingInv (loadState scope fallbackId fallbackCreatedAt loaded) := by
  refine ⟨?_, rfl⟩
  cases loaded with
  | none => simp [loadState, recomputePendingCounters, createInitialState]
  | some raw =>
    intro seg hmem
    simp only [loadState, recomputePendingCounters, coerceState, List.mem_map] at hmem
    obtain ⟨r, hr, rfl⟩ := hmem
    have : r ∈ ((some raw).map RawOmState.pendingSegments).join.getD [] := by
      cases hps : raw.pendingSegments with
      | none => simp [hps] at hr
      | some l =>
        simp only [hps] at hr
        simpa [Option.join, hps] using hr
    exact hseg r this

/-- C9: every pending segment created by the buffer append operation carries a
token count clamped to at least 1, so in every reachable engine state
`pendingTokens` (which always equals the recomputed sum) is at least the number
of pending segments, and appending a segment always strictly increases
`pendingTokens`. -/
theorem pending_tokens_invariant (s : OmState) (h : ReachableOm s) :
    (∀ seg ∈ s.pendingSegments, 1 ≤ seg.tokens)
    ∧ s.pendingTokens = sumSegmentTokens s.pendingSegments
    ∧ s.pendingSegments.length ≤ s.pendingTokens
    ∧ (∀ id createdAt text tokens,
        s.pendingTokens < (pushPendingSegment id createdAt text tokens s).pendingTokens) := by
  have hinv : PendingInv s := by
    induction h with
    | init scope => exact ⟨fun seg hm => absurd hm (by simp [createInitialState]), rfl⟩
    | push id c t tok hr ih => exact pendingInv_push id c t tok _ ih
    | observe cfg now trig rc oc hr ih => exact pendingInv_observe cfg now trig rc _ oc ih
    | reflect cfg now aggr reason rc hr ih =>
      exact pendingInv_reflect cfg now reason aggr _ rc ih
    | turn cfg now sid sca st stok rc oc hr ih =>
      exact pendingInv_turnEnd cfg now sid sca st stok rc oc _ ih
    | persist hr ih => exact ⟨ih.1, rfl⟩
    | load scope fid fca loaded hseg => exact pendingInv_load scope fid fca loaded hseg
  obtain ⟨h1, h2⟩ := hinv
  refine ⟨h1, h2, ?_, ?_⟩
  · rw [h2]
    exact length_le_sumSegmentTokens s.pendingSegments h1
  · intro id createdAt text tokens
    have hpush : (pushPendingSegment id createdAt text tokens s).pendingTokens
        = sumSegmentTokens (s.pendingSegments
            ++ [{ id := id, createdAt := createdAt, text := text,
                  tokens := Nat.max 1 tokens }]) := rfl
    rw [hpush, sumSegmentTokens_append, h2]
    have : 1 ≤ Nat.max 1 tokens := Nat.le_max_left 1 tokens
    simp only [sumSegmentTokens, List.map_cons, List.map_nil, List.sum_cons, List.sum_nil]
    omega

theorem pending_tokens_invariant_witness :
    ((createInitialState .thread).pendingSegments.length
        ≤ (createInitialState .thread).pendingTokens)
    ∧ (createInitialState .thread).pendingTokens
        < (pushPendingSegment "a" "t" "x" 0 (createInitialState .thread)).pendingTokens
    ∧ (∀ seg ∈ (pushPendingSegment "a" "t" "x" 0 (createInitialState .thread)).pendingSegments,
        1 ≤ seg.tokens) :=
  ⟨(pending_tokens_invariant (createInitialState .thread) (ReachableOm.init .thread)).2.2.1,
   (pending_tokens_invariant (createInitialState .thread) (ReachableOm.init .thread)).2.2.2
     "a" "t" "x" 0,
   (pending_tokens_invariant (pushPendingSegment "a" "t" "x" 0 (createInitialState .thread))
     (ReachableOm.push "a" "t" "x" 0 (ReachableOm.init .thread))).1⟩

/-- C10: recovery from any persisted data yields a state whose buffering flags
are both `false` and whose `pendingTokens` is recomputed from the loaded
segment list, so a mutual-exclusion flag that was set when the state was
persisted can never block Observer or Reflector runs after a session reload: an
Observer run starts whenever segments are pending, and a Reflector run with a
successful call goes through. -/
theorem load_recovery_resets (scope : StorageScope) (fallbackId fallbackCreatedAt : String)
    (loaded : Option RawOmState) :
    (loadState scope fallbackId fallbackCreatedAt loaded).isBufferingObservation = false
    ∧ (loadState scope fallbackId fallbackCreatedAt loaded).isBufferingReflection = false
    ∧ (loadState scope fallbackId fallbackCreatedAt loaded).pendingTokens
        = sumSegmentTokens (loadState scope fallbackId fallbackCreatedAt loaded).pendingSegments
    ∧ ((loadState scope fallbackId fallbackCreatedAt loaded).pendingSegments ≠ [] →
       (observeStart (loadState scope fallbackId fallbackCreatedAt loaded)).isSome)
    ∧ (∀ (cfg : OmConfig) (now reason : String) (aggressive : Bool) (p : OmSections),
       cfg.enableReflection = true →
       jsTrim (loadState scope fallbackId fallbackCreatedAt loaded).observations ≠ "" →
       jsTrim p.observations ≠ "" →
       (reflectNow cfg now aggressive reason
         (loadState scope fallbackId fallbackCreatedAt loaded)
         (.returns (some p))).2 = some true) := by
  have hobs : (loadState scope fallbackId fallbackCreatedAt loaded).isBufferingObservation
      = false := by
    cases loaded <;> rfl
  have hrfl : (loadState scope fallbackId fallbackCreatedAt loaded).isBufferingReflection
      = false := by
    cases loaded <;> rfl
  refine ⟨hobs, hrfl, rfl, ?_, ?_⟩
  · intro hpend
    exact observeStart_isSome _ hobs hpend
  · intro cfg now reason aggressive p hen hdoc hp
    exact (reflectNow_success cfg now reason aggressive _ p hen hdoc hrfl hp).1

theorem load_recovery_resets_witness :
    (loadState .thread "seg_x" "t9"
        (some { storageScope := some "thread", observations := some "A",
                observationTokens := some 1, currentTask := none,
                suggestedResponse := none, observationRuns := some 4,
                reflectionRuns := some 2, lastObservedAt := none,
                lastCompressionRatio := none, reflections := some [],
                pendingSegments := some [⟨some "s1", some "t0", some "turn", some 7⟩],
                pendingTokens := some 99, isBufferingObservation := some true,
                isBufferingReflection := some true })).isBufferingObservation = false
    ∧ (loadState .thread "seg_x" "t9"
        (some { storageScope := some "thread", observations := some "A",
                observationTokens := some 1, currentTask := none,
                suggestedResponse := none, observationRuns := some 4,
                reflectionRuns := some 2, lastObservedAt := none,
                lastCompressionRatio := none, reflections := some [],
                pendingSegments := some [⟨some "s1", some "t0", some "turn", some 7⟩],
                pendingTokens := some 99, isBufferingObservation := some true,
                isBufferingReflection := some true })).isBufferingReflection = false
    ∧ (observeStart (loadState .thread "seg_x" "t9"
        (some { storageScope := some "thread", observations := some "A",
                observationTokens := some 1, currentTask := none,
                suggestedResponse := none, observationRuns := some 4,
                reflectionRuns := some 2, lastObservedAt := none,
                lastCompressionRatio := none, reflections := some [],
                pendingSegments := some [⟨some "s1", some "t0", some "turn", some 7⟩],
                pendingTokens := some 99, isBufferingObservation := some true,
                isBufferingReflection := some true }))).isSome
    ∧ (reflectNow DEFAULT_OM_CONFIG "T" false "manual"
        (loadState .thread "seg_x" "t9"
          (some { storageScope := some "thread", observations := some "A",
                  observationTokens := some 1, currentTask := none,
                  suggestedResponse := none, observationRuns := some 4,
                  reflectionRuns := some 2, lastObservedAt := none,
                  lastCompressionRatio := none, reflections := some [],
                  pendingSegments := some [⟨some "s1", some "t0", some "turn", some 7⟩],
                  pendingTokens := some 99, isBufferingObservation := some true,
                  isBufferingReflection := some true }))
        (.returns (some ⟨"B", none, none⟩))).2 = some true :=
  ⟨(load_recovery_resets .thread "seg_x" "t9" _).1,
   (load_recovery_resets .thread "seg_x" "t9" _).2.1,
   (load_recovery_resets .thread "seg_x" "t9" _).2.2.2.1 (by decide),
   (load_recovery_resets .thread "seg_x" "t9" _).2.2.2.2 DEFAULT_OM_CONFIG "T" "manual"
     false ⟨"B", none, none⟩ (by decide) (by decide) (by decide)⟩

/-- C8: temporal annotation on the concrete cases.  The header line
`Date: Feb 12, 2026` rendered against a current date of Feb 13, 2026 is
annotated `(yesterday)`, and two consecutive date-header lines ten days apart
get the gap marker line `[1 week later]` inserted between them (preceded by the
blank line the source's splice introduces). -/
theorem temporal_annotation_cases :
    formatRelativeTime (daysFromCivil 2026 2 12) (daysFromCivil 2026 2 13) = "yesterday"
    ∧ addRelativeTimeToObservations "Date: Feb 12, 2026" (daysFromCivil 2026 2 13)
        = "Date: Feb 12, 2026 (yesterday)"
    ∧ formatGapBetweenDates (daysFromCivil 2026 2 12) (daysFromCivil 2026 2 22)
        = some "[1 week later]"
    ∧ addRelativeTimeToObservations "Date: Feb 12, 2026\nDate: Feb 22, 2026"
        (daysFromCivil 2026 2 22)
        = "Date: Feb 12, 2026 (1 week ago)\n\n[1 week later]\nDate: Feb 22, 2026 (today)" := by
  decide

end OM
